import Mathlib

/-!
Verification of macaron (src/macaron.py), a single-file Python ORM for SQLite.

Shallow embedding conventions:
* Python strings are modelled as lists of characters (abbrev Str := List Char);
  the helper "str" turns a Lean string literal into this form.  All string
  helpers used by the source (split, replace, join, sort) are transcribed as
  structural functions on character lists so that everything evaluates.
* Python raised exceptions are modelled with Except; an error constructor per
  exception kind.
* Python methods that may assign to their receiver are modelled as functions
  returning the receiver after the call together with the method result; the
  receiver component transcribes exactly the assignments the source performs
  on self.
* The SQLite storage collaborator is out of scope in the spec; where a claim
  needs the effect of an executed statement (UPDATE / SELECT fetch), that
  effect is modelled on a table represented as a list of rows.
-/

deriving instance DecidableEq for Except

namespace Macaron

/-- Python strings are modelled as lists of characters. -/
abbrev Str := List Char

/-- Coerces a Lean string literal to the character-list model. -/
def str (s : String) : Str := s.data

/-- Models Python name.split("__") (QuerySet._parse_field_name, macaron.py:912).
Scans left to right; a run of underscores is consumed two at a time, like
Python's non-overlapping split. -/
def splitUU : Str → List Str
  | [] => [[]]
  | '_' :: '_' :: cs => [] :: splitUU cs
  | c :: cs =>
    match splitUU cs with
    | t :: ts => (c :: t) :: ts
    | [] => [[c]]

/-- Models Python name.split(".") (used via len(name.split(".")) as the sort
key for JOIN clauses, macaron.py:949). -/
def splitDot : Str → List Str
  | [] => [[]]
  | c :: cs =>
    if c = '.' then [] :: splitDot cs
    else
      match splitDot cs with
      | t :: ts => (c :: t) :: ts
      | [] => [[c]]

/-- Models Python name.replace(".", "__") (QuerySet.order_by, macaron.py:1063). -/
def replaceDotUU : Str → Str
  | [] => []
  | '.' :: cs => '_' :: '_' :: replaceDotUU cs
  | c :: cs => c :: replaceDotUU cs

/-- Models Python's lexicographic string comparison by code points (used by
sorted() on the join-map keys, macaron.py:949). -/
def lexLeCh : Str → Str → Bool
  | [], _ => true
  | _ :: _, [] => false
  | a :: as, b :: bs =>
    if a.toNat < b.toNat then true
    else if b.toNat < a.toNat then false
    else lexLeCh as bs

/-- Path depth of a join alias: len(name.split(".")) from macaron.py:949. -/
def pathDepth (s : Str) : Nat := (splitDot s).length

/-- Models assignment into a Python dict viewed as an association list with
unique keys: replaces the value at an existing key in place, otherwise
appends the new binding (insertion order preserved). -/
def setAssoc {β : Type} : List (Str × β) → Str → β → List (Str × β)
  | [], k, v => [(k, v)]
  | (k', v') :: t, k, v =>
    if k' = k then (k, v) :: t else (k', v') :: setAssoc t k v

/-- Looks up a key in a Python dict viewed as an association list. -/
def lookupA {β : Type} : List (Str × β) → Str → Option β
  | [], _ => Option.none
  | (k', v) :: t, k => if k' = k then some v else lookupA t k

/-- Decimal rendering of a Python int ("%d" formatting). -/
def intToStr (n : Int) : Str := (toString n).data

-- ---------------------------------------------------------------------------
-- Python values
-- ---------------------------------------------------------------------------

/-- Scalar Python values reaching macaron's condition compiler and database
rows: None, the NotNull sentinel class (macaron.py:49), a Like pattern
wrapper (macaron.py:52), ints and strings. -/
inductive PyPrim where
  | none
  | notNullSentinel
  | like (s : Str)
  | int (n : Int)
  | str (s : Str)
deriving DecidableEq

/-- A Python value used as the operand of a condition: a scalar or a
list/tuple of scalars.  Nested lists, dicts and model instances as operands
are outside the modelled domain. -/
inductive PyVal where
  | prim (p : PyPrim)
  | list (vs : List PyPrim)
deriving DecidableEq

-- ---------------------------------------------------------------------------
-- OpConverter: the condition compiler for single leaves (macaron.py:1474-1505)
-- ---------------------------------------------------------------------------

/-- Error kinds raised during query compilation: KeyError on an unknown
attribute, RuntimeError("Invalid operand name"), RuntimeError("Invalid order
field name"), ValueError("Operator ... is not supported"), TypeError /
ValueError from the between/in converters, and AttributeError for a missing
name attribute. -/
inductive QErr where
  | keyError
  | invalidOperand
  | invalidOrderField
  | unsupportedOp
  | typeError
  | valueError
  | attributeError
deriving DecidableEq

/-- The OpConverter.CONV table (macaron.py:1475-1478). -/
def CONV : List (Str × Str) :=
  [(str "lt", str "<"), (str "le", str "<="), (str "ge", str ">="),
   (str "gt", str ">"), (str "ne", str "<>"),
   (str "like", str "LIKE"), (str "glob", str "GLOB"),
   (str "regexp", str "REGEXP")]

/-- Renders the quoted column reference substituted for the single leading
"%s" slot of every operator template (macaron.py:1488): the pair
tblname, field name becomes "tblname"."field". -/
def colRef (tblname fldName : Str) : Str :=
  str "\"" ++ tblname ++ str "\".\"" ++ fldName ++ str "\""

/-- OpConverter._base_in (macaron.py:1490): renders " IN (?,...,?)" with one
placeholder per element of the operand and passes the operand through as the
parameter value.  Every template in the source starts with "%s"; we model a
template as the text after that slot.  A Python str operand (being sized) is
kept faithful to len(); any other non-sized operand raises TypeError. -/
def baseIn (opName : Str) (value : PyVal) : Except QErr (Str × PyVal) :=
  match value with
  | .list vs =>
    .ok (str " " ++ opName ++ str " (" ++
         List.intercalate (str ",") (List.replicate vs.length (str "?")) ++ str ")", .list vs)
  | .prim (.str s) =>
    .ok (str " " ++ opName ++ str " (" ++
         List.intercalate (str ",") (List.replicate s.length (str "?")) ++ str ")", .prim (.str s))
  | _ => .error .typeError

/-- OpConverter._base_between (macaron.py:1494-1497): requires an iterable
operand (TypeError otherwise) of length exactly two (ValueError otherwise)
and renders " BETWEEN ? AND ?". -/
def baseBetween (opName : Str) (value : PyVal) : Except QErr (Str × PyVal) :=
  match value with
  | .list vs =>
    if vs.length ≠ 2 then .error .valueError
    else .ok (str " " ++ opName ++ str " ? AND ?", .list vs)
  | .prim (.str s) =>
    if s.length ≠ 2 then .error .valueError
    else .ok (str " " ++ opName ++ str " ? AND ?", .prim (.str s))
  | _ => .error .typeError

/-- OpConverter._convert (macaron.py:1501-1505): None renders IS NULL with a
None parameter; the NotNull sentinel renders IS NOT NULL with a None
parameter; a Like wrapper renders LIKE ? with its pattern string as the
parameter; anything else renders = ? with fld.to_database applied.  The base
Field.to_database is the identity (macaron.py:462); the query path of the
modelled claims only involves base fields, so toDb is instantiated with the
identity below. -/
def fieldConvert (toDb : PyVal → PyVal) (value : PyVal) : Str × PyVal :=
  match value with
  | .prim .none => (str " IS NULL", .prim .none)
  | .prim .notNullSentinel => (str " IS NOT NULL", .prim .none)
  | .prim (.like s) => (str " LIKE ?", .prim (.str s))
  | v => (str " = ?", toDb v)

/-- OpConverter.get_clause (macaron.py:1481-1488): dispatches on the operator
suffix; operators with a dedicated method (in, not_in, between, not_between)
and the CONV table are tried in turn, an unknown operator raises ValueError;
without an operator the value-directed _convert applies.  The returned
template has its "%s" slot filled with the quoted column reference. -/
def getClause (tblname : Str) (op : Option Str) (fldName : Str)
    (toDb : PyVal → PyVal) (value : PyVal) : Except QErr (Str × PyVal) :=
  match op with
  | some o =>
    let r : Except QErr (Str × PyVal) :=
      if o = str "in" then baseIn (str "IN") value
      else if o = str "not_in" then baseIn (str "NOT IN") value
      else if o = str "between" then baseBetween (str "BETWEEN") value
      else if o = str "not_between" then baseBetween (str "NOT BETWEEN") value
      else
        match lookupA CONV o with
        | some sqlop => .ok (str " " ++ sqlop ++ str " ?", value)
        | Option.none => .error .unsupportedOp
    match r with
    | .ok (tmpl, v) => .ok (colRef tblname fldName ++ tmpl, v)
    | .error e => .error e
  | Option.none =>
    let (tmpl, v) := fieldConvert toDb value
    .ok (colRef tblname fldName ++ tmpl, v)

/-- The parameter-collection step of Q.to_sql (macaron.py:1217-1219): a None
parameter contributes nothing, a list/tuple parameter is spliced
element-wise, anything else is appended as a single parameter. -/
def paramsOf (prm : PyVal) : List PyPrim :=
  match prm with
  | .prim .none => []
  | .list vs => vs
  | .prim p => [p]

-- ---------------------------------------------------------------------------
-- Temporal fields (macaron.py:496-524)
-- ---------------------------------------------------------------------------

/-- Zero-padded fixed-width decimal rendering: width w, least significant
digit last (strftime's %Y/%m/%d/%H/%M/%S zero-padded fields). -/
def padDigits : Nat → Nat → Str
  | 0, _ => []
  | w + 1, n => padDigits w (n / 10) ++ [Char.ofNat (48 + n % 10)]

/-- Digit test for parsing. -/
def isDig (c : Char) : Bool := 48 ≤ c.toNat && c.toNat ≤ 57

/-- Reads exactly w digit characters from the front of the input,
accumulating their decimal value; fails on a non-digit or early end of
input (strptime's fixed-width numeric directives on canonical input). -/
def readN : Nat → Str → Nat → Option (Nat × Str)
  | 0, cs, acc => some (acc, cs)
  | _ + 1, [], _ => Option.none
  | w + 1, c :: cs, acc =>
    if isDig c then readN w cs (10 * acc + (c.toNat - 48)) else Option.none

/-- Expects an exact separator character at the front of the input. -/
def readSep (sep : Char) : Str → Option Str
  | [] => Option.none
  | c :: cs => if c = sep then some cs else Option.none

/-- Python datetime truncated to whole seconds (the precision of the
"%Y-%m-%d %H:%M:%S" storage format). -/
structure PyDateTime where
  year : Nat
  month : Nat
  day : Nat
  hour : Nat
  minute : Nat
  second : Nat
deriving DecidableEq

/-- Python datetime.date. -/
structure PyDate where
  year : Nat
  month : Nat
  day : Nat
deriving DecidableEq

/-- Python datetime.time truncated to whole seconds. -/
structure PyTime where
  hour : Nat
  minute : Nat
  second : Nat
deriving DecidableEq

/-- Gregorian leap-year rule, as validated by Python's datetime. -/
def isLeap (y : Nat) : Bool := (y % 4 = 0 && y % 100 ≠ 0) || y % 400 = 0

/-- Days in a month, as validated by Python's datetime. -/
def daysInMonth (y m : Nat) : Nat :=
  if m = 2 then (if isLeap y then 29 else 28)
  else if m = 4 ∨ m = 6 ∨ m = 9 ∨ m = 11 then 30
  else 31

/-- Validity of a date triple per Python's datetime (MINYEAR 1, MAXYEAR
9999). -/
def validYMD (y m d : Nat) : Prop :=
  1 ≤ y ∧ y ≤ 9999 ∧ 1 ≤ m ∧ m ≤ 12 ∧ 1 ≤ d ∧ d ≤ daysInMonth y m

instance (y m d : Nat) : Decidable (validYMD y m d) := by
  unfold validYMD; infer_instance

/-- Validity of a time triple per Python's datetime. -/
def validHMS (h mi s : Nat) : Prop := h ≤ 23 ∧ mi ≤ 59 ∧ s ≤ 59

instance (h mi s : Nat) : Decidable (validHMS h mi s) := by
  unfold validHMS; infer_instance

/-- Validity of a PyDateTime. -/
def PyDateTime.valid (dt : PyDateTime) : Prop :=
  validYMD dt.year dt.month dt.day ∧ validHMS dt.hour dt.minute dt.second

instance (dt : PyDateTime) : Decidable dt.valid := by
  unfold PyDateTime.valid; infer_instance

/-- Validity of a PyDate. -/
def PyDate.valid (d : PyDate) : Prop := validYMD d.year d.month d.day

instance (d : PyDate) : Decidable d.valid := by
  unfold PyDate.valid; infer_instance

/-- Validity of a PyTime. -/
def PyTime.valid (t : PyTime) : Prop := validHMS t.hour t.minute t.second

instance (t : PyTime) : Decidable t.valid := by
  unfold PyTime.valid; infer_instance

/-- strftime("%Y-%m-%d %H:%M:%S") on a datetime (TimestampField.to_database,
macaron.py:501), with the year rendered zero-padded to four digits as in the
documented YYYY-MM-DD HH:MM:SS storage shape. -/
def formatTS (dt : PyDateTime) : Str :=
  padDigits 4 dt.year ++ str "-" ++ padDigits 2 dt.month ++ str "-" ++
  padDigits 2 dt.day ++ str " " ++ padDigits 2 dt.hour ++ str ":" ++
  padDigits 2 dt.minute ++ str ":" ++ padDigits 2 dt.second

/-- strftime("%Y-%m-%d") on a date (DateField.to_database, macaron.py:511). -/
def formatDate (d : PyDate) : Str :=
  padDigits 4 d.year ++ str "-" ++ padDigits 2 d.month ++ str "-" ++ padDigits 2 d.day

/-- strftime("%H:%M:%S") on a time (TimeField.to_database, macaron.py:521). -/
def formatTime (t : PyTime) : Str :=
  padDigits 2 t.hour ++ str ":" ++ padDigits 2 t.minute ++ str ":" ++ padDigits 2 t.second

/-- datetime.strptime(value, "%Y-%m-%d %H:%M:%S") on canonical input
(TimestampField.to_object, macaron.py:504): fixed-width numeric fields
between the literal separators, then Python's datetime range validation;
any failure is the raised ValueError, modelled as Option.none. -/
def parseTS (cs : Str) : Option PyDateTime :=
  match readN 4 cs 0 with
  | Option.none => Option.none
  | some (y, r1) =>
    match readSep '-' r1 with
    | Option.none => Option.none
    | some r2 =>
      match readN 2 r2 0 with
      | Option.none => Option.none
      | some (mo, r3) =>
        match readSep '-' r3 with
        | Option.none => Option.none
        | some r4 =>
          match readN 2 r4 0 with
          | Option.none => Option.none
          | some (d, r5) =>
            match readSep ' ' r5 with
            | Option.none => Option.none
            | some r6 =>
              match readN 2 r6 0 with
              | Option.none => Option.none
              | some (h, r7) =>
                match readSep ':' r7 with
                | Option.none => Option.none
                | some r8 =>
                  match readN 2 r8 0 with
                  | Option.none => Option.none
                  | some (mi, r9) =>
                    match readSep ':' r9 with
                    | Option.none => Option.none
                    | some r10 =>
                      match readN 2 r10 0 with
                      | Option.none => Option.none
                      | some (s, r11) =>
                        if r11 = [] ∧ validYMD y mo d ∧ validHMS h mi s then
                          some ⟨y, mo, d, h, mi, s⟩
                        else Option.none

/-- datetime.strptime(value, "%Y-%m-%d").date() on canonical input
(DateField.to_object, macaron.py:514). -/
def parseDate (cs : Str) : Option PyDate :=
  match readN 4 cs 0 with
  | Option.none => Option.none
  | some (y, r1) =>
    match readSep '-' r1 with
    | Option.none => Option.none
    | some r2 =>
      match readN 2 r2 0 with
      | Option.none => Option.none
      | some (mo, r3) =>
        match readSep '-' r3 with
        | Option.none => Option.none
        | some r4 =>
          match readN 2 r4 0 with
          | Option.none => Option.none
          | some (d, r5) =>
            if r5 = [] ∧ validYMD y mo d then some ⟨y, mo, d⟩ else Option.none

/-- datetime.strptime(value, "%H:%M:%S").time() on canonical input
(TimeField.to_object, macaron.py:524). -/
def parseTime (cs : Str) : Option PyTime :=
  match readN 2 cs 0 with
  | Option.none => Option.none
  | some (h, r1) =>
    match readSep ':' r1 with
    | Option.none => Option.none
    | some r2 =>
      match readN 2 r2 0 with
      | Option.none => Option.none
      | some (mi, r3) =>
        match readSep ':' r3 with
        | Option.none => Option.none
        | some r4 =>
          match readN 2 r4 0 with
          | Option.none => Option.none
          | some (s, r5) =>
            if r5 = [] ∧ validHMS h mi s then some ⟨h, mi, s⟩ else Option.none

namespace TimestampField

/-- TimestampField.to_database (macaron.py:499-501): None maps to None,
otherwise the formatted string. -/
def to_database (v : Option PyDateTime) : Option Str := v.map formatTS

/-- TimestampField.to_object (macaron.py:502-504): None maps to None,
otherwise strptime; the outer Option.none models the ValueError strptime
raises on a malformed string. -/
def to_object (v : Option Str) : Option (Option PyDateTime) :=
  match v with
  | Option.none => some Option.none
  | some s => (parseTS s).map some

end TimestampField

namespace DateField

/-- DateField.to_database (macaron.py:509-511). -/
def to_database (v : Option PyDate) : Option Str := v.map formatDate

/-- DateField.to_object (macaron.py:512-514). -/
def to_object (v : Option Str) : Option (Option PyDate) :=
  match v with
  | Option.none => some Option.none
  | some s => (parseDate s).map some

end DateField

namespace TimeField

/-- TimeField.to_database (macaron.py:519-521). -/
def to_database (v : Option PyTime) : Option Str := v.map formatTime

/-- TimeField.to_object (macaron.py:522-524). -/
def to_object (v : Option Str) : Option (Option PyTime) :=
  match v with
  | Option.none => some Option.none
  | some s => (parseTime s).map some

end TimeField

-- ---------------------------------------------------------------------------
-- Schema: models, fields and relationship descriptors after class
-- finalization (ModelMeta has run, names and foreign keys are resolved)
-- ---------------------------------------------------------------------------

/-- A class attribute of a model as seen by QuerySet._parse_field_name
(macaron.py:908-929): a plain Field carrying its bound column name, or one
of the three relationship descriptors.  Relationship descriptors carry the
attribute name the metaclass bound (self.name); the reverse descriptor has
no name attribute in the source.  Models are referenced by index into the
schema. -/
inductive Attr where
  | plain (name : Str)
  | manyToOne (name : Str) (ref : Nat) (fkey : Str) (refKeyOpt : Option Str)
  | manyToOneRev (rev : Nat) (refKeyOpt : Option Str) (revFkey : Str)
  | manyToMany (name : Str) (ref : Nat) (lnk : Nat)
deriving DecidableEq

/-- Per-model table metadata (TableMetaInfo): table name, primary-key column
name, and the attribute dictionary. -/
structure ModelInfo where
  tableName : Str
  primaryKey : Str
  attrs : List (Str × Attr)
deriving DecidableEq

/-- The set of registered models; model references are indices.  A valid
schema only references existing indices. -/
abbrev Schema := List ModelInfo

/-- Looks a model up by index. -/
def mget (sch : Schema) (i : Nat) : ModelInfo := sch.getD i ⟨[], [], []⟩

/-- Whether the attribute is a relationship descriptor, i.e. has a callable
sql_joins (the dispatch test in macaron.py:916). -/
def Attr.hasSqlJoins : Attr → Bool
  | .plain _ => false
  | _ => true

/-- The model property of a relationship descriptor (macaron.py:673, 765,
822): the referenced model for many-to-one and many-to-many, the child model
for the reverse descriptor.  Plain fields have no model property; the value
for them is never consulted. -/
def Attr.targetModel : Attr → Nat
  | .plain _ => 0
  | .manyToOne _ r _ _ => r
  | .manyToOneRev r _ _ => r
  | .manyToMany _ r _ => r

/-- The name attribute of a descriptor (fld.name): bound for plain fields,
many-to-one and many-to-many; the reverse descriptor has none, so accessing
it raises AttributeError. -/
def Attr.clauseName : Attr → Except QErr Str
  | .plain n => .ok n
  | .manyToOne n _ _ _ => .ok n
  | .manyToOneRev _ _ _ => .error .attributeError
  | .manyToMany n _ _ => .ok n

/-- Double-quotes an identifier. -/
def quoted (s : Str) : Str := str "\"" ++ s ++ str "\""

/-- The sql_joins methods of the three relationship descriptors
(ManyToOne.sql_joins macaron.py:675-684, _ManyToOne_Rev.sql_joins
macaron.py:767-776, _ManyToManyBase.sql_joins macaron.py:824-840).  owner is
the model holding the attribute (used to resolve the reverse descriptor's
ref_key and the many-to-many class-side key); asName is the synthesized
alias, tblname the alias of the owning side. -/
def attrJoins (sch : Schema) (owner : Nat) (a : Attr) (asName tblname : Str) : List Str :=
  match a with
  | .plain _ => []
  | .manyToOne _ ref fkey refKeyOpt =>
    let reftbl := (mget sch ref).tableName
    let refkey := refKeyOpt.getD (mget sch ref).primaryKey
    let fkeyS := (if tblname ≠ [] then quoted tblname ++ str "." else []) ++ quoted fkey
    [str "INNER JOIN " ++ quoted reftbl ++ str " AS " ++ quoted asName ++ str " ON " ++
      fkeyS ++ str " = " ++ quoted asName ++ str "." ++ quoted refkey]
  | .manyToOneRev rev refKeyOpt revFkey =>
    let revtbl := (mget sch rev).tableName
    let refkey := refKeyOpt.getD (mget sch owner).primaryKey
    let refkeyS := (if tblname ≠ [] then quoted tblname ++ str "." else []) ++ quoted refkey
    [str "INNER JOIN " ++ quoted revtbl ++ str " AS " ++ quoted asName ++ str " ON " ++
      refkeyS ++ str " = " ++ quoted asName ++ str "." ++ quoted revFkey]
  | .manyToMany _ ref lnk =>
    let clstbl := tblname
    let clskey := (mget sch owner).primaryKey
    let reftbl := (mget sch ref).tableName
    let refkey := (mget sch ref).primaryKey
    let lnktbl := (mget sch lnk).tableName
    let lnkclskey := (mget sch owner).tableName ++ str "_id"
    let lnkrefkey := reftbl ++ str "_id"
    [str "INNER JOIN " ++ quoted lnktbl ++ str " AS " ++ quoted (asName ++ str ".lnk") ++
       str " ON " ++ quoted clstbl ++ str "." ++ quoted clskey ++ str " = " ++
       quoted (asName ++ str ".lnk") ++ str "." ++ quoted lnkclskey,
     str "INNER JOIN " ++ quoted reftbl ++ str " AS " ++ quoted asName ++ str " ON " ++
       quoted (asName ++ str ".lnk") ++ str "." ++ quoted lnkrefkey ++ str " = " ++
       quoted asName ++ str "." ++ quoted refkey]

-- ---------------------------------------------------------------------------
-- QuerySet (macaron.py:879-1165)
-- ---------------------------------------------------------------------------

/-- The clauses dict of a QuerySet (macaron.py:890-892). -/
structure Clauses where
  ctype : Str
  whereCl : List Str
  orderBy : List Str
  values : List PyPrim
  distinctFlag : Bool
  limit : Option Int
  offset : Option Int
deriving DecidableEq

/-- QuerySet state, parameterized by the row-object type α produced by the
factory.  cur, idx and cache are the cursor state set by _initialize_cursor
(cur models the not-yet-fetched remainder of the cursor; idx is self._index,
starting at -1).  execCount instruments how many execute() calls this object
has issued to the storage collaborator.  The factory, parent pointer,
convfunc and subquery serial of the source are not modelled (no modelled
claim depends on them). -/
structure QuerySet (α : Type) where
  cls : Nat
  clauses : Clauses
  selectFields : List (Str × Option Nat)
  joins : List (Str × List Str)
  wrappers : List (Str × Str)
  cur : Option (List α)
  idx : Int
  cache : List α
  execCount : Nat
deriving DecidableEq

/-- The fresh-construction branch of QuerySet.__init__ (macaron.py:888-896)
on a model class. -/
def freshQS (sch : Schema) (cls : Nat) : QuerySet α :=
  { cls := cls
    clauses := ⟨str "SELECT", [], [], [], false, Option.none, Option.none⟩
    selectFields := [(quoted (mget sch cls).tableName ++ str ".*", some cls)]
    joins := []
    wrappers := []
    cur := Option.none
    idx := -1
    cache := []
    execCount := 0 }

/-- The copy-construction branch of QuerySet.__init__ (macaron.py:881-887):
deep-copies the clauses, copies select_fields, joins and wrappers, and runs
_initialize_cursor; in the pure model copying is value reuse and the cursor
state is reset.  The copy is a new object, so its execution counter starts
at zero. -/
def copyQS (qs : QuerySet α) : QuerySet α :=
  { qs with cur := Option.none, idx := -1, cache := [], execCount := 0 }

/-- Error-free kernel of QuerySet._parse_field_name (macaron.py:908-929):
walks the double-underscore-separated items; a relationship item registers
its join under the cumulative alias (a plain dict assignment,
self.joins[asname] = ...) and descends into the target model; a plain field
stops the walk; a missing attribute raises KeyError.  Returns the updated
join map, the final alias, the last resolved descriptor and the unconsumed
items. -/
def parseLoop (sch : Schema) :
    List Str → Nat → Str → List (Str × List Str) →
    Except QErr (List (Str × List Str) × Str × Attr × List Str)
  | [], _, _, _ => .error .keyError
  | item :: rest, curmdl, curname, joins =>
    match lookupA (mget sch curmdl).attrs item with
    | Option.none => .error .keyError
    | some fld =>
      if fld.hasSqlJoins then
        let asname := curname ++ str "." ++ item
        let joins' := setAssoc joins asname (attrJoins sch curmdl fld asname curname)
        match rest with
        | [] => .ok (joins', asname, fld, [])
        | _ :: _ => parseLoop sch rest fld.targetModel asname joins'
      else
        .ok (joins, curname, fld, rest)

/-- QuerySet._parse_field_name (macaron.py:908-929): the loop above on the
split name, then the at-most-one-trailing-operator check
(RuntimeError("Invalid operand name") otherwise).  The returned query-set
carries the join map the source stored into self.joins. -/
def parseFieldName (sch : Schema) (qs : QuerySet α) (name : Str) :
    Except QErr (QuerySet α × Str × Attr × Option Str) :=
  match parseLoop sch (splitUU name) qs.cls (mget sch qs.cls).tableName qs.joins with
  | .error e => .error e
  | .ok (joins', curname, fld, rest) =>
    if rest.length ≥ 2 then .error .invalidOperand
    else .ok ({ qs with joins := joins' }, curname, fld, rest.head?)

/-- The key order in which QuerySet.sql emits JOIN clauses (macaron.py:949):
sorted(sorted(self.joins.keys()), key=lambda name: len(name.split("."))) —
an inner lexicographic sort followed by a stable sort on path depth,
modelled by the stable insertion sort. -/
def sortedJoinKeys (qs : QuerySet α) : List Str :=
  List.insertionSort (fun a b => pathDepth a ≤ pathDepth b)
    (List.insertionSort (fun a b => lexLeCh a b = true) (qs.joins.map Prod.fst))

/-- Join-map lookup used during emission (self.joins[k]). -/
def lookupJoins (qs : QuerySet α) (k : Str) : List Str := (lookupA qs.joins k).getD []

/-- The list of SQL lines assembled by the QuerySet.sql property
(macaron.py:937-971) before the final newline join: head clause, JOIN
clauses in sorted key order, WHERE, ORDER BY, LIMIT, OFFSET. -/
def sqlLines (sch : Schema) (qs : QuerySet α) : List Str :=
  let tbl := (mget sch qs.cls).tableName
  let head :=
    if qs.clauses.ctype = str "DELETE" then
      [str "DELETE FROM " ++ quoted tbl]
    else
      let flds := List.intercalate (str ", ") (qs.selectFields.map Prod.fst)
      let distinctS := if qs.clauses.distinctFlag then str " DISTINCT" else []
      [str "SELECT" ++ distinctS ++ str " " ++ flds ++ str " FROM " ++ quoted tbl]
  let joinLines := (sortedJoinKeys qs).flatMap (fun k => lookupJoins qs k)
  let whereLines :=
    if qs.clauses.whereCl ≠ [] then
      [str "WHERE " ++ List.intercalate (str " AND ")
        (qs.clauses.whereCl.map (fun w => str "(" ++ w ++ str ")"))]
    else []
  let orderLines :=
    if qs.clauses.orderBy ≠ [] then
      [str "ORDER BY " ++ List.intercalate (str ", ") qs.clauses.orderBy]
    else []
  let limitLines :=
    match qs.clauses.limit with
    | some n => [str "LIMIT " ++ intToStr n]
    | Option.none => []
  let offsetLines :=
    match qs.clauses.offset with
    | some n => [str "OFFSET " ++ intToStr n]
    | Option.none => []
  head ++ joinLines ++ whereLines ++ orderLines ++ limitLines ++ offsetLines

/-- The full compiled SQL string of the QuerySet.sql property: the joined
lines with any registered wrapper clauses applied outermost-last
(macaron.py:964-971); a wrapper "pre %s post" is modelled as the pair of its
text before and after the slot. -/
def sqlQS (sch : Schema) (qs : QuerySet α) : Str :=
  qs.wrappers.foldl (fun s w => w.1 ++ s ++ w.2)
    (List.intercalate (str "\n") (sqlLines sch qs))

namespace QuerySet

/-- QuerySet.limit (macaron.py:1106-1109).  Methods that may assign to their
receiver are modelled as returning (receiver after the call, result); this
and all transformation methods below only assign to the newly constructed
copy, never to self. -/
def limit (qs : QuerySet α) (n : Int) : QuerySet α × QuerySet α :=
  let newset := copyQS qs
  (qs, { newset with clauses := { newset.clauses with limit := some n } })

/-- QuerySet.offset (macaron.py:1111-1115): sets the offset and, because
SQLite requires a LIMIT before an OFFSET, forces limit to the unbounded
sentinel -1 when it is unset; Python's x or -1 also replaces a limit of 0. -/
def offset (qs : QuerySet α) (n : Int) : QuerySet α × QuerySet α :=
  let newset := copyQS qs
  let c1 := { newset.clauses with offset := some n }
  let lim : Option Int :=
    match c1.limit with
    | Option.none => some (-1)
    | some v => if v = 0 then some (-1) else some v
  (qs, { newset with clauses := { c1 with limit := lim } })

/-- QuerySet.distinct (macaron.py:1101-1104). -/
def distinct (qs : QuerySet α) : QuerySet α × QuerySet α :=
  let newset := copyQS qs
  (qs, { newset with clauses := { newset.clauses with distinctFlag := true } })

/-- The per-name loop of QuerySet.join (macaron.py:1050-1054), threading the
new set through each parse. -/
def joinLoop (sch : Schema) : List Str → QuerySet α → Except QErr (QuerySet α)
  | [], s => .ok s
  | n :: ns, s =>
    match parseFieldName sch s n with
    | .error e => .error e
    | .ok (s', _, _, _) => joinLoop sch ns s'

/-- QuerySet.join (macaron.py:1050-1054). -/
def join (sch : Schema) (qs : QuerySet α) (names : List Str) :
    Except QErr (QuerySet α × QuerySet α) :=
  (joinLoop sch names (copyQS qs)).map (fun s => (qs, s))

/-- The per-name loop of QuerySet.order_by (macaron.py:1056-1073): strips a
leading descending marker, rewrites dots to double underscores, parses the
path (an unconsumed operator is RuntimeError("Invalid order field name")),
and appends the quoted column, substituting the target model's primary key
for a relationship-valued key. -/
def orderByLoop (sch : Schema) : List Str → QuerySet α → Except QErr (QuerySet α)
  | [], s => .ok s
  | name :: ns, s =>
    let p : Str × Str :=
      match name with
      | '-' :: rest => (str " DESC", rest)
      | _ => ([], name)
    let name2 := replaceDotUU p.2
    match parseFieldName sch s name2 with
    | .error e => .error e
    | .ok (s', curname, fld, op) =>
      if op ≠ Option.none then .error .invalidOrderField
      else
        let fname :=
          match fld with
          | .plain n => n
          | rel => (mget sch rel.targetModel).primaryKey
        orderByLoop sch ns
          { s' with clauses := { s'.clauses with
              orderBy := s'.clauses.orderBy ++ [quoted curname ++ str "." ++ quoted fname ++ p.1] } }

/-- QuerySet.order_by (macaron.py:1056-1073). -/
def order_by (sch : Schema) (qs : QuerySet α) (names : List Str) :
    Except QErr (QuerySet α × QuerySet α) :=
  (orderByLoop sch names (copyQS qs)).map (fun s => (qs, s))

/-- An argument to QuerySet.fields (macaron.py:1078-1099): a plain dotted
name or an aggregate-function wrapper carrying the SQL function name. -/
inductive FieldsArg where
  | plainName (n : Str)
  | agg (fn : Str) (fieldName : Str)

/-- The per-name loop of QuerySet.fields (macaron.py:1085-1097). -/
def fieldsLoop (sch : Schema) : List FieldsArg → QuerySet α → Except QErr (QuerySet α)
  | [], s => .ok s
  | .agg fn fieldName :: ns, s =>
    if fieldName = str "*" then
      fieldsLoop sch ns
        { s with selectFields := s.selectFields ++ [(fn ++ str "(*)", Option.none)] }
    else
      match parseFieldName sch s fieldName with
      | .error e => .error e
      | .ok (s', curname, fld, _) =>
        match fld.clauseName with
        | .error e => .error e
        | .ok fldname =>
          fieldsLoop sch ns
            { s' with selectFields := s'.selectFields ++
                [(fn ++ str "(" ++ quoted curname ++ str "." ++ quoted fldname ++ str ")",
                  Option.none)] }
  | .plainName n :: ns, s =>
    match parseFieldName sch s n with
    | .error e => .error e
    | .ok (s', curname, fld, _) =>
      match fld with
      | .plain fldname =>
        fieldsLoop sch ns
          { s' with selectFields := s'.selectFields ++
              [(quoted curname ++ str "." ++ quoted fldname, Option.none)] }
      | rel =>
        fieldsLoop sch ns
          { s' with selectFields := s'.selectFields ++
              [(quoted curname ++ str ".*", some rel.targetModel)] }

/-- QuerySet.fields (macaron.py:1078-1099); the conv keyword (result tuple
conversion) is not modelled. -/
def fields (sch : Schema) (qs : QuerySet α) (names : List FieldsArg) :
    Except QErr (QuerySet α × QuerySet α) :=
  (fieldsLoop sch names { copyQS qs with selectFields := [] }).map (fun s => (qs, s))

end QuerySet

-- ---------------------------------------------------------------------------
-- Condition objects Q / _Qraw / _Qlst (macaron.py:1167-1220)
-- ---------------------------------------------------------------------------

/-- A child of the AND-list built by QuerySet.select: a raw SQL fragment
with its parameters (_Qraw) or a keyword-condition dict (Q).  User-composed
nested boolean trees are outside the modelled claims. -/
inductive QNode where
  | qraw (sql : Str) (prms : List PyPrim)
  | qdict (kv : List (Str × PyVal))

/-- The per-item loop of Q.to_sql (macaron.py:1204-1219), over the
already-sorted items: each key is parsed (threading the query-set whose
joins the parse updates), compiled by OpConverter, and its parameter
contribution collected.  The rewriting of a model-instance value into a
primary-key equality (macaron.py:1209-1211) is outside the modelled value
domain. -/
def qPairsToSql (sch : Schema) :
    List (Str × PyVal) → QuerySet α → List Str → List PyPrim →
    Except QErr (Str × List PyPrim × QuerySet α)
  | [], s, whrs, prms =>
    .ok (str "(" ++ List.intercalate (str " AND ") whrs ++ str ")", prms, s)
  | (key, val) :: rest, s, whrs, prms =>
    match parseFieldName sch s key with
    | .error e => .error e
    | .ok (s', curname, fld, op) =>
      match fld.clauseName with
      | .error e => .error e
      | .ok fldname =>
        match getClause curname op fldname id val with
        | .error e => .error e
        | .ok (whr, prm) => qPairsToSql sch rest s' (whrs ++ [whr]) (prms ++ paramsOf prm)

/-- Q.to_sql (macaron.py:1201-1220): iterates sorted(self.items()) — the
dict items sorted by key — and joins the compiled leaves with AND. -/
def qToSql (sch : Schema) (kv : List (Str × PyVal)) (s : QuerySet α) :
    Except QErr (Str × List PyPrim × QuerySet α) :=
  qPairsToSql sch (List.insertionSort (fun a b => lexLeCh a.1 b.1 = true) kv) s [] []

/-- _Qlst.to_sql (macaron.py:1187-1194): compiles each child, parenthesizes
the operator join, and concatenates the parameter lists in order. -/
def qlstToSql (sch : Schema) (op : Str) :
    List QNode → QuerySet α → List Str → List PyPrim →
    Except QErr (Str × List PyPrim × QuerySet α)
  | [], s, whrs, prms =>
    .ok (str "(" ++ List.intercalate (str " " ++ op ++ str " ") whrs ++ str ")", prms, s)
  | .qraw sql p :: rest, s, whrs, prms =>
    qlstToSql sch op rest s (whrs ++ [str "(" ++ sql ++ str ")"]) (prms ++ p)
  | .qdict kv :: rest, s, whrs, prms =>
    match qToSql sch kv s with
    | .error e => .error e
    | .ok (whr, p, s') => qlstToSql sch op rest s' (whrs ++ [whr]) (prms ++ p)

namespace QuerySet

/-- QuerySet.select (macaron.py:1030-1045): builds the copy, wraps the
positional arguments and the keyword dict into an AND list, compiles it on
the copy, and appends the clause and parameters to the copy's state.  The
convenience conversion of a leading raw-SQL string argument is represented
by the caller passing a qraw node. -/
def select (sch : Schema) (qs : QuerySet α) (args : List QNode)
    (kw : List (Str × PyVal)) : Except QErr (QuerySet α × QuerySet α) :=
  let newset := copyQS qs
  if args.isEmpty ∧ kw.isEmpty then .ok (qs, newset)
  else
    let children := args ++ (if kw.isEmpty then [] else [QNode.qdict kw])
    match qlstToSql sch (str "AND") children newset [] [] with
    | .error e => .error e
    | .ok (whr, prms, s') =>
      .ok (qs, { s' with clauses := { s'.clauses with
          whereCl := s'.clauses.whereCl ++ [whr],
          values := s'.clauses.values ++ prms } })

/-- A Python slice object. -/
structure PySlice where
  start : Option Int
  stop : Option Int
  step : Option Int

/-- The slice branch of QuerySet.__getitem__ (macaron.py:1117-1130): a step
other than 1 or None is rejected; the start is added to any pre-existing
offset; a missing stop sets the unbounded limit sentinel; a stop before the
start raises ValueError; otherwise the limit is the slice width. -/
def getItemSlice (qs : QuerySet α) (sl : PySlice) :
    Except QErr (QuerySet α × QuerySet α) :=
  let newset := copyQS qs
  if sl.step ≠ some 1 ∧ sl.step ≠ Option.none then .error .valueError
  else
    let start : Int := (sl.start).getD 0
    let newset1 :=
      { newset with clauses := { newset.clauses with
          offset := some ((newset.clauses.offset.getD 0) + start) } }
    match sl.stop with
    | Option.none =>
      .ok (qs, { newset1 with clauses := { newset1.clauses with limit := some (-1) } })
    | some stop =>
      if stop < start then .error .valueError
      else
        .ok (qs, { newset1 with clauses := { newset1.clauses with
            limit := some (stop - start) } })

end QuerySet

-- ---------------------------------------------------------------------------
-- Execution and iteration (macaron.py:973-989, 1117-1137)
-- ---------------------------------------------------------------------------

/-- QuerySet._execute (macaron.py:986-989): _initialize_cursor (reset index
and cache) and open a fresh cursor on the compiled SQL.  rows is what the
storage collaborator returns for this query; the execution counter
increments. -/
def executeQ (rows : List α) (qs : QuerySet α) : QuerySet α :=
  { qs with cur := some rows, idx := -1, cache := [], execCount := qs.execCount + 1 }

/-- QuerySet.next (macaron.py:977-984): executes first if no cursor is open;
fetches one row, increments the index, raises StopIteration (modelled as
Option.none) past the end, and appends the factored object to the cache. -/
def nextQ (rows : List α) (qs : QuerySet α) : Option α × QuerySet α :=
  let qs1 := if qs.cur.isNone then executeQ rows qs else qs
  match qs1.cur with
  | some [] => (Option.none, { qs1 with idx := qs1.idx + 1 })
  | some (r :: rest) =>
    (some r, { qs1 with cur := some rest, idx := qs1.idx + 1, cache := qs1.cache ++ [r] })
  | Option.none => (Option.none, qs1)

/-- The iteration loop of the integer branch of QuerySet.__getitem__
(macaron.py:1136-1137): keeps fetching until self._index reaches the wanted
position, returning the object there; falling off the end returns None. -/
def runLoop (i : Nat) : List α → QuerySet α → Option α × QuerySet α
  | [], qs => (Option.none, { qs with cur := some [], idx := qs.idx + 1 })
  | r :: rest, qs =>
    let qs' := { qs with cur := some rest, idx := qs.idx + 1, cache := qs.cache ++ [r] }
    if (i : Int) ≤ qs'.idx then (some r, qs') else runLoop i rest qs'

/-- An IndexError raised by list indexing. -/
inductive IdxErr where
  | indexError
deriving DecidableEq

/-- The integer branch of QuerySet.__getitem__ (macaron.py:1133-1137): a
position at or below the current index is served from the cache (raising
IndexError when the cache is shorter, as Python list indexing does);
otherwise iteration starts over — __iter__ re-executes the query — and runs
until the position is produced or the rows are exhausted.  The unused copy
the source constructs first plays no role on this branch. -/
def getItemInt (rows : List α) (qs : QuerySet α) (i : Nat) :
    Except IdxErr (Option α) × QuerySet α :=
  if (i : Int) ≤ qs.idx then
    match qs.cache.get? i with
    | some o => (.ok (some o), qs)
    | Option.none => (.error .indexError, qs)
  else
    let qs1 := executeQ rows qs
    let r := runLoop i rows qs1
    (.ok r.1, r.2)

/-- The error kinds of QuerySet.get: the model's DoesNotExist (derived from
ObjectDoesNotExist, macaron.py:40 and 1285) and MultipleObjectsReturned
(macaron.py:43). -/
inductive GetErr where
  | objectNotFound
  | multipleObjectsReturned
deriving DecidableEq

/-- QuerySet.get (macaron.py:1019-1028) after the select: one next() — an
immediate StopIteration raises DoesNotExist; a second next() succeeding
raises MultipleObjectsReturned; otherwise the single object is returned.
rows is the result set the predicate matches; the fresh query-set produced
by select has no open cursor. -/
def getQS (rows : List α) (qs : QuerySet α) : Except GetErr α :=
  match nextQ rows qs with
  | (Option.none, _) => .error .objectNotFound
  | (some obj, qs1) =>
    match nextQ rows qs1 with
    | (Option.none, _) => .ok obj
    | (some _, _) => .error .multipleObjectsReturned

-- ---------------------------------------------------------------------------
-- Model.save (macaron.py:1400-1425)
-- ---------------------------------------------------------------------------

/-- The metadata save needs from a model: table name, primary-key column and
the ordered field names.  The modelled models carry nullable base fields, so
the validation pass and the set-at-save overrides of the source are
identities here. -/
structure ModelSpec where
  tableName : Str
  primaryKey : Str
  fieldNames : List Str

/-- A database row: column name to stored value. -/
abbrev Row := List (Str × PyPrim)

/-- Model._data.get(name, None) (macaron.py:471). -/
def getData (r : Row) (n : Str) : PyPrim := (lookupA r n).getD .none

/-- The in-memory model object: its _data dict and the cached original
primary-key value _orig_pk captured at construction (macaron.py:1346). -/
structure MObj where
  data : Row
  origPk : PyPrim

/-- Model.pk (macaron.py:1351-1354). -/
def pkOf (m : ModelSpec) (o : MObj) : PyPrim := getData o.data m.primaryKey

/-- The UPDATE parameter list save passes to execute (macaron.py:1412-1414):
the field values in declaration order followed by the preserved original
primary-key value bound to the WHERE clause. -/
def saveParams (m : ModelSpec) (o : MObj) : List PyPrim :=
  m.fieldNames.map (getData o.data) ++ [o.origPk]

/-- The UPDATE statement save builds (macaron.py:1407, 1413). -/
def saveSql (m : ModelSpec) : Str :=
  str "UPDATE " ++ quoted m.tableName ++ str " SET " ++
  List.intercalate (str ", ") (m.fieldNames.map (fun n => quoted n ++ str " = ?")) ++
  str " WHERE " ++ quoted m.primaryKey ++ str " = ?"

/-- The storage collaborator executing that UPDATE on a table: every row
whose primary-key column equals the WHERE parameter gets each named column
set to the corresponding SET parameter, in order. -/
def applyUpdate (m : ModelSpec) (setVals : List PyPrim) (whereVal : PyPrim)
    (db : List Row) : List Row :=
  db.map (fun r =>
    if getData r m.primaryKey = whereVal then
      (m.fieldNames.zip setVals).foldl (fun row nv => setAssoc row nv.1 nv.2) r
    else r)

/-- The storage collaborator executing SELECT * FROM table WHERE pk = ?. -/
def dbSelectPk (m : ModelSpec) (db : List Row) (v : PyPrim) : List Row :=
  db.filter (fun r => getData r m.primaryKey = v)

/-- Model.save followed by Model._save_and_update_object (macaron.py:
1400-1425): executes the UPDATE with the WHERE clause bound to _orig_pk,
determines the current id (falling back to the cursor's lastrowid when the
in-memory primary key is unset), fetches the row back with get, resyncs
every field from the fetched object, and finally re-caches _orig_pk from the
now-current primary key.  The fetch-back reuses get's error kinds. -/
def saveM (m : ModelSpec) (o : MObj) (db : List Row) (lastrowid : PyPrim) :
    Except GetErr (MObj × List Row) :=
  let values := m.fieldNames.map (getData o.data)
  let db' := applyUpdate m values o.origPk db
  let currentId := if pkOf m o = .none then lastrowid else pkOf m o
  match dbSelectPk m db' currentId with
  | [] => .error .objectNotFound
  | [row] =>
    let data' := m.fieldNames.foldl (fun d n => setAssoc d n (getData row n)) o.data
    let o' : MObj := { data := data', origPk := getData data' m.primaryKey }
    .ok (o', db')
  | _ :: _ :: _ => .error .multipleObjectsReturned

-- ---------------------------------------------------------------------------
-- A concrete two-model schema used to instantiate theorems: the Team /
-- Member example of the documentation (model 0 is team, model 1 is member).
-- ---------------------------------------------------------------------------

/-- Concrete schema: team(id, name) with the auto-registered reverse
accessor member_set, and member(id, name, part, team → team). -/
def demoSchema : Schema :=
  [ { tableName := str "team", primaryKey := str "id",
      attrs := [(str "id", .plain (str "id")), (str "name", .plain (str "name")),
                (str "member_set", .manyToOneRev 1 Option.none (str "team_id"))] },
    { tableName := str "member", primaryKey := str "id",
      attrs := [(str "id", .plain (str "id")), (str "name", .plain (str "name")),
                (str "part", .plain (str "part")),
                (str "team", .manyToOne (str "team") 0 (str "team_id") Option.none),
                (str "team_id", .plain (str "team_id"))] } ]

-- ---------------------------------------------------------------------------
-- Reduction helpers for the operator dispatch of getClause
-- ---------------------------------------------------------------------------

theorem getClause_in (tblname fldName : Str) (toDb : PyVal → PyVal) (value : PyVal) :
    getClause tblname (some (str "in")) fldName toDb value =
      match baseIn (str "IN") value with
      | .ok (tmpl, v) => .ok (colRef tblname fldName ++ tmpl, v)
      | .error e => .error e := rfl

theorem getClause_not_in (tblname fldName : Str) (toDb : PyVal → PyVal) (value : PyVal) :
    getClause tblname (some (str "not_in")) fldName toDb value =
      match baseIn (str "NOT IN") value with
      | .ok (tmpl, v) => .ok (colRef tblname fldName ++ tmpl, v)
      | .error e => .error e := rfl

theorem getClause_between (tblname fldName : Str) (toDb : PyVal → PyVal) (value : PyVal) :
    getClause tblname (some (str "between")) fldName toDb value =
      match baseBetween (str "BETWEEN") value with
      | .ok (tmpl, v) => .ok (colRef tblname fldName ++ tmpl, v)
      | .error e => .error e := rfl

theorem getClause_not_between (tblname fldName : Str) (toDb : PyVal → PyVal) (value : PyVal) :
    getClause tblname (some (str "not_between")) fldName toDb value =
      match baseBetween (str "NOT BETWEEN") value with
      | .ok (tmpl, v) => .ok (colRef tblname fldName ++ tmpl, v)
      | .error e => .error e := rfl

-- ---------------------------------------------------------------------------
-- C6
-- ---------------------------------------------------------------------------

/-- C6: for every leaf compiled by the condition compiler, the value None
compiles to IS NULL with no parameter contribution; the not-null sentinel to
IS NOT NULL with no parameter; a Like pattern wrapper to LIKE ? contributing
its pattern string as one parameter; and in/not_in expand to a parenthesized
placeholder list sized to the operand's length, contributing the operand's
elements in order. -/
theorem c6 (tblname fldName : Str) (s : Str) (vs : List PyPrim) :
    (getClause tblname Option.none fldName id (.prim .none) =
        .ok (colRef tblname fldName ++ str " IS NULL", .prim .none) ∧
      paramsOf (.prim .none) = []) ∧
    (getClause tblname Option.none fldName id (.prim .notNullSentinel) =
        .ok (colRef tblname fldName ++ str " IS NOT NULL", .prim .none) ∧
      paramsOf (.prim .none) = []) ∧
    (getClause tblname Option.none fldName id (.prim (.like s)) =
        .ok (colRef tblname fldName ++ str " LIKE ?", .prim (.str s)) ∧
      paramsOf (.prim (.str s)) = [.str s]) ∧
    (getClause tblname (some (str "in")) fldName id (.list vs) =
        .ok (colRef tblname fldName ++ str " IN (" ++
          List.intercalate (str ",") (List.replicate vs.length (str "?")) ++ str ")",
          .list vs) ∧
      getClause tblname (some (str "not_in")) fldName id (.list vs) =
        .ok (colRef tblname fldName ++ str " NOT IN (" ++
          List.intercalate (str ",") (List.replicate vs.length (str "?")) ++ str ")",
          .list vs) ∧
      paramsOf (.list vs) = vs) := by
  refine ⟨⟨rfl, rfl⟩, ⟨rfl, rfl⟩, ⟨rfl, rfl⟩, ?_, ?_, rfl⟩
  · rw [getClause_in]
    have e1 : (str " IN (" : Str) = str " " ++ str "IN" ++ str " (" := by decide
    simp [baseIn, e1, List.append_assoc]
  · rw [getClause_not_in]
    have e1 : (str " NOT IN (" : Str) = str " " ++ str "NOT IN" ++ str " (" := by decide
    simp [baseIn, e1, List.append_assoc]

-- ---------------------------------------------------------------------------
-- C7
-- ---------------------------------------------------------------------------

/-- C7: a between / not_between condition compiles only when the operand is
a sequence of exactly two values; an operand whose length is not two fails
with the ValueError kind during compilation, before any SQL is produced. -/
theorem c7 (tblname fldName : Str) (vs : List PyPrim) :
    (vs.length ≠ 2 →
      getClause tblname (some (str "between")) fldName id (.list vs) = .error .valueError ∧
      getClause tblname (some (str "not_between")) fldName id (.list vs) =
        .error .valueError) ∧
    (vs.length = 2 →
      getClause tblname (some (str "between")) fldName id (.list vs) =
        .ok (colRef tblname fldName ++ str " BETWEEN ? AND ?", .list vs) ∧
      getClause tblname (some (str "not_between")) fldName id (.list vs) =
        .ok (colRef tblname fldName ++ str " NOT BETWEEN ? AND ?", .list vs)) := by
  constructor
  · intro h
    constructor
    · rw [getClause_between]; simp [baseBetween, h]
    · rw [getClause_not_between]; simp [baseBetween, h]
  · intro h
    constructor
    · rw [getClause_between]
      have e1 : (str " BETWEEN ? AND ?" : Str) = str " " ++ str "BETWEEN" ++ str " ? AND ?" := by
        decide
      simp [baseBetween, h, e1, List.append_assoc]
    · rw [getClause_not_between]
      have e1 : (str " NOT BETWEEN ? AND ?" : Str) =
          str " " ++ str "NOT BETWEEN" ++ str " ? AND ?" := by decide
      simp [baseBetween, h, e1, List.append_assoc]

/-- Witness for C7 at concrete operands of length one and two. -/
theorem c7_witness :
    getClause (str "t") (some (str "between")) (str "age") id (.list [.int 1]) =
      .error .valueError ∧
    getClause (str "t") (some (str "between")) (str "age") id
        (.list [.int 1, .int 2]) =
      .ok (colRef (str "t") (str "age") ++ str " BETWEEN ? AND ?",
        .list [.int 1, .int 2]) :=
  ⟨((c7 (str "t") (str "age") [.int 1]).1 (by decide)).1,
   ((c7 (str "t") (str "age") [.int 1, .int 2]).2 (by decide)).1⟩

-- ---------------------------------------------------------------------------
-- C3
-- ---------------------------------------------------------------------------

/-- C3: get() on a freshly selected query-set (the copy select returns has
no open cursor) fails with the ObjectNotFound kind on zero matching rows,
fails with the MultipleResultsFound kind on two or more, and returns the
single object on exactly one. -/
theorem c3 {α : Type} (rows : List α) (qs : QuerySet α) :
    getQS rows (copyQS qs) =
      match rows with
      | [] => .error .objectNotFound
      | [x] => .ok x
      | _ :: _ :: _ => .error .multipleObjectsReturned := by
  cases rows with
  | nil => rfl
  | cons a t =>
    cases t with
    | nil => rfl
    | cons b t' => rfl

-- ---------------------------------------------------------------------------
-- C4
-- ---------------------------------------------------------------------------

/-- C4: slicing composes with pre-existing offset/limit as deltas — the
start is added to the existing offset and the limit becomes the slice
width; in particular [2:5] after .offset(1) yields offset 3 and limit 3.  A
stop before the start and a step other than 1 or None fail with the
ValueError kind. -/
theorem c4 {α : Type} (qs : QuerySet α) :
    (∀ a b : Int, ¬ b < a →
      (QuerySet.getItemSlice qs ⟨some a, some b, Option.none⟩).map
          (fun res => (res.2.clauses.offset, res.2.clauses.limit)) =
        .ok (some (qs.clauses.offset.getD 0 + a), some (b - a))) ∧
    ((QuerySet.getItemSlice (QuerySet.offset qs 1).2 ⟨some 2, some 5, Option.none⟩).map
        (fun res => (res.2.clauses.offset, res.2.clauses.limit)) =
      .ok (some 3, some 3)) ∧
    (∀ a b : Int, b < a →
      QuerySet.getItemSlice qs ⟨some a, some b, Option.none⟩ = .error .valueError) ∧
    (∀ s0 s1 (st : Int), st ≠ 1 →
      QuerySet.getItemSlice qs ⟨s0, s1, some st⟩ = .error .valueError) := by
  refine ⟨?_, ?_, ?_, ?_⟩
  · intro a b h
    simp [QuerySet.getItemSlice, h, Except.map, copyQS]
  · simp [QuerySet.getItemSlice, QuerySet.offset, copyQS, Except.map]
  · intro a b h
    simp [QuerySet.getItemSlice, h]
  · intro s0 s1 st h
    simp [QuerySet.getItemSlice, h]

/-- Witness for C4 at a concrete query-set and slice bounds. -/
theorem c4_witness :
    (QuerySet.getItemSlice (freshQS demoSchema 1 : QuerySet Nat)
        ⟨some 2, some 5, Option.none⟩).map
        (fun res => (res.2.clauses.offset, res.2.clauses.limit)) =
      .ok (some 2, some 3) ∧
    QuerySet.getItemSlice (freshQS demoSchema 1 : QuerySet Nat)
        ⟨some 5, some 2, Option.none⟩ = .error .valueError ∧
    QuerySet.getItemSlice (freshQS demoSchema 1 : QuerySet Nat)
        ⟨some 0, some 2, some 2⟩ = .error .valueError := by
  refine ⟨?_, ?_, ?_⟩
  · have h := (c4 (freshQS demoSchema 1 : QuerySet Nat)).1 2 5 (by decide)
    simpa using h
  · exact (c4 (freshQS demoSchema 1 : QuerySet Nat)).2.2.1 5 2 (by decide)
  · exact (c4 (freshQS demoSchema 1 : QuerySet Nat)).2.2.2 (some 0) (some 2) 2 (by decide)

-- ---------------------------------------------------------------------------
-- C10
-- ---------------------------------------------------------------------------

/-- The value the iteration loop of the integer indexing branch returns:
counting from the index the loop starts at, the wanted position is served
from the remaining rows, and running off the end yields None. -/
theorem runLoop_fst {α : Type} (i : Nat) :
    ∀ (rows : List α) (qs : QuerySet α), qs.idx < (i : Int) →
      (runLoop i rows qs).1 = rows.get? ((i : Int) - qs.idx - 1).toNat := by
  intro rows
  induction rows with
  | nil => intro qs _; simp [runLoop]
  | cons r rest ih =>
    intro qs h
    simp only [runLoop]
    by_cases hle : (i : Int) ≤ qs.idx + 1
    · rw [if_pos hle]
      have ht : ((i : Int) - qs.idx - 1).toNat = 0 := by omega
      rw [ht]
      rfl
    · rw [if_neg hle, ih]
      · show rest.get? (((i : Int) - (qs.idx + 1) - 1).toNat) =
          (r :: rest).get? (((i : Int) - qs.idx - 1).toNat)
        have ht : ((i : Int) - qs.idx - 1).toNat =
            ((i : Int) - (qs.idx + 1) - 1).toNat + 1 := by omega
        rw [ht]
        rfl
      · show qs.idx + 1 < (i : Int)
        omega

/-- C10 (amended): integer indexing with the wanted position beyond the
current iteration index (re)executes the query and returns the i-th row, or
None past the end; a position at or below the index with a cache entry is
served from the cache with the state — in particular the execution counter —
unchanged; but a position at or below the index beyond the cache (the
exhausted state, where the index equals the row count) raises IndexError. -/
theorem c10 {α : Type} (rows : List α) (qs : QuerySet α) (i : Nat) :
    (qs.idx < (i : Int) → (getItemInt rows qs i).1 = .ok (rows.get? i)) ∧
    ((i : Int) ≤ qs.idx → i < qs.cache.length →
      getItemInt rows qs i = (.ok (qs.cache.get? i), qs)) ∧
    ((i : Int) ≤ qs.idx → qs.cache.length ≤ i →
      getItemInt rows qs i = (.error .indexError, qs)) := by
  refine ⟨?_, ?_, ?_⟩
  · intro h
    have hnot : ¬ ((i : Int) ≤ qs.idx) := by omega
    simp only [getItemInt, if_neg hnot]
    have hexec : (executeQ rows qs).idx < (i : Int) := by
      show (-1 : Int) < (i : Int)
      omega
    rw [runLoop_fst i rows _ hexec]
    have ht : ((i : Int) - (executeQ rows qs).idx - 1).toNat = i := by
      show ((i : Int) - (-1) - 1).toNat = i
      omega
    rw [ht]
  · intro h h2
    simp only [getItemInt, if_pos h]
    rw [List.get?_eq_get h2]
  · intro h h2
    simp only [getItemInt, if_pos h]
    rw [List.get?_eq_none.mpr h2]

/-- Counterexample to C10 as stated: on three result rows, indexing position
3 returns None the first time, but — the cursor now being exhausted with
index 3 and only three cached objects — repeating the same indexing raises
IndexError instead of returning None. -/
theorem c10_counterexample :
    (getItemInt [10, 20, 30] (freshQS demoSchema 1 : QuerySet Nat) 3).1 =
      .ok Option.none ∧
    (getItemInt [10, 20, 30]
        ((getItemInt [10, 20, 30] (freshQS demoSchema 1 : QuerySet Nat) 3).2) 3).1 =
      .error .indexError := by decide

/-- Witness for C10 at concrete rows and states: fresh indexing past the
end, a cached hit with unchanged state, and the exhausted-state IndexError. -/
theorem c10_witness :
    (getItemInt [10, 20] (freshQS demoSchema 1 : QuerySet Nat) 5).1 = .ok Option.none ∧
    getItemInt [10, 20]
        ({ freshQS demoSchema 1 with idx := 1, cache := [10, 20] } : QuerySet Nat) 1 =
      (.ok (some 20), { freshQS demoSchema 1 with idx := 1, cache := [10, 20] }) ∧
    getItemInt [10, 20]
        ({ freshQS demoSchema 1 with idx := 2, cache := [10, 20] } : QuerySet Nat) 2 =
      (.error .indexError, { freshQS demoSchema 1 with idx := 2, cache := [10, 20] }) := by
  refine ⟨?_, ?_, ?_⟩
  · have h := (c10 [10, 20] (freshQS demoSchema 1 : QuerySet Nat) 5).1 (by decide)
    rw [h]
    rfl
  · have h := (c10 [10, 20]
        ({ freshQS demoSchema 1 with idx := 1, cache := [10, 20] } : QuerySet Nat) 1).2.1
        (by decide) (by decide)
    rw [h]
    rfl
  · exact (c10 [10, 20]
        ({ freshQS demoSchema 1 with idx := 2, cache := [10, 20] } : QuerySet Nat) 2).2.2
        (by decide) (by decide)

-- ---------------------------------------------------------------------------
-- C2
-- ---------------------------------------------------------------------------

/-- C2: every query-semantics-changing transformation (select, order_by,
limit, offset, join, fields, distinct) builds and returns a new copy; the
receiver — its compiled SQL and its parameter list — is unchanged by the
call.  For the fallible methods the statement compares, on whatever the call
returns, the receiver component against the original. -/
theorem c2 {α : Type} (sch : Schema) (qs : QuerySet α) :
    (∀ n : Int, sqlQS sch (QuerySet.limit qs n).1 = sqlQS sch qs ∧
      (QuerySet.limit qs n).1.clauses.values = qs.clauses.values) ∧
    (∀ n : Int, sqlQS sch (QuerySet.offset qs n).1 = sqlQS sch qs ∧
      (QuerySet.offset qs n).1.clauses.values = qs.clauses.values) ∧
    (sqlQS sch (QuerySet.distinct qs).1 = sqlQS sch qs ∧
      (QuerySet.distinct qs).1.clauses.values = qs.clauses.values) ∧
    (∀ names, (QuerySet.join sch qs names).map (fun res => sqlQS sch res.1) =
        (QuerySet.join sch qs names).map (fun _ => sqlQS sch qs) ∧
      (QuerySet.join sch qs names).map (fun res => res.1.clauses.values) =
        (QuerySet.join sch qs names).map (fun _ => qs.clauses.values)) ∧
    (∀ names, (QuerySet.order_by sch qs names).map (fun res => sqlQS sch res.1) =
        (QuerySet.order_by sch qs names).map (fun _ => sqlQS sch qs) ∧
      (QuerySet.order_by sch qs names).map (fun res => res.1.clauses.values) =
        (QuerySet.order_by sch qs names).map (fun _ => qs.clauses.values)) ∧
    (∀ names, (QuerySet.fields sch qs names).map (fun res => sqlQS sch res.1) =
        (QuerySet.fields sch qs names).map (fun _ => sqlQS sch qs) ∧
      (QuerySet.fields sch qs names).map (fun res => res.1.clauses.values) =
        (QuerySet.fields sch qs names).map (fun _ => qs.clauses.values)) ∧
    (∀ args kw, (QuerySet.select sch qs args kw).map (fun res => sqlQS sch res.1) =
        (QuerySet.select sch qs args kw).map (fun _ => sqlQS sch qs) ∧
      (QuerySet.select sch qs args kw).map (fun res => res.1.clauses.values) =
        (QuerySet.select sch qs args kw).map (fun _ => qs.clauses.values)) := by
  refine ⟨fun n => ⟨rfl, rfl⟩, fun n => ⟨rfl, rfl⟩, ⟨rfl, rfl⟩, ?_, ?_, ?_, ?_⟩
  · intro names
    constructor <;>
      cases hjl : QuerySet.joinLoop sch names (copyQS qs) <;>
        simp [QuerySet.join, hjl, Except.map]
  · intro names
    constructor <;>
      cases hol : QuerySet.orderByLoop sch names (copyQS qs) <;>
        simp [QuerySet.order_by, hol, Except.map]
  · intro names
    constructor <;>
      cases hfl : QuerySet.fieldsLoop sch names { copyQS qs with selectFields := [] } <;>
        simp [QuerySet.fields, hfl, Except.map]
  · intro args kw
    by_cases hc : args.isEmpty ∧ kw.isEmpty
    · constructor <;> simp [QuerySet.select, hc, Except.map]
    · constructor <;>
        (simp only [QuerySet.select, if_neg hc]
         cases hql : qlstToSql sch (str "AND")
             (args ++ if kw.isEmpty = true then [] else [QNode.qdict kw]) (copyQS qs) [] [] <;>
           simp [hql, Except.map])

-- ---------------------------------------------------------------------------
-- Association-list lemmas for the join map
-- ---------------------------------------------------------------------------

theorem lookupA_setAssoc_self {β : Type} (j : List (Str × β)) (k : Str) (v : β) :
    lookupA (setAssoc j k v) k = some v := by
  induction j with
  | nil => simp [setAssoc, lookupA]
  | cons p t ih =>
    by_cases h : p.1 = k
    · simp [setAssoc, h, lookupA]
    · simp [setAssoc, h, lookupA, ih]

theorem lookupA_setAssoc_ne {β : Type} (j : List (Str × β)) {k k' : Str} (v : β)
    (h : k' ≠ k) : lookupA (setAssoc j k v) k' = lookupA j k' := by
  induction j with
  | nil =>
    simp only [setAssoc, lookupA]
    rw [if_neg (fun he => h he.symm)]
  | cons p t ih =>
    obtain ⟨k1, v1⟩ := p
    by_cases hp : k1 = k
    · subst hp
      simp only [setAssoc, if_pos rfl, lookupA]
      rw [if_neg (fun he => h he.symm), if_neg (fun he => h he.symm)]
    · simp only [setAssoc, if_neg hp, lookupA]
      by_cases hk : k1 = k'
      · rw [if_pos hk, if_pos hk]
      · rw [if_neg hk, if_neg hk, ih]

theorem setAssoc_eq_of_lookupA {β : Type} (j : List (Str × β)) (k : Str) (v : β)
    (h : lookupA j k = some v) : setAssoc j k v = j := by
  induction j with
  | nil => simp [lookupA] at h
  | cons p t ih =>
    obtain ⟨k1, v1⟩ := p
    by_cases hp : k1 = k
    · subst hp
      simp only [lookupA, if_pos rfl] at h
      injection h with h
      subst h
      simp [setAssoc]
    · simp only [lookupA, if_neg hp] at h
      simp only [setAssoc, if_neg hp]
      rw [ih h]

theorem keys_setAssoc {β : Type} (j : List (Str × β)) (k : Str) (v : β) :
    (setAssoc j k v).map Prod.fst =
      if k ∈ j.map Prod.fst then j.map Prod.fst else j.map Prod.fst ++ [k] := by
  induction j with
  | nil => simp [setAssoc]
  | cons p t ih =>
    obtain ⟨k1, v1⟩ := p
    by_cases hp : k1 = k
    · subst hp
      show List.map Prod.fst (if k1 = k1 then (k1, v) :: t else (k1, v1) :: setAssoc t k1 v) = _
      rw [if_pos rfl,
        if_pos (show k1 ∈ List.map Prod.fst ((k1, v1) :: t) from by
          rw [List.map_cons]; exact List.mem_cons_self _ _)]
      simp only [List.map_cons]
    · simp only [setAssoc, if_neg hp, List.map_cons, ih, List.mem_cons]
      by_cases hm : k ∈ t.map Prod.fst
      · rw [if_pos hm, if_pos (Or.inr hm)]
      · rw [if_neg hm, if_neg (fun hor => hor.elim (fun he => hp he.symm) hm)]
        simp

theorem nodup_keys_setAssoc {β : Type} (j : List (Str × β)) (k : Str) (v : β)
    (h : (j.map Prod.fst).Nodup) : ((setAssoc j k v).map Prod.fst).Nodup := by
  rw [keys_setAssoc]
  by_cases hm : k ∈ j.map Prod.fst
  · rw [if_pos hm]; exact h
  · rw [if_neg hm]
    refine List.Nodup.append h (List.nodup_singleton k) ?_
    intro x hx hxk
    rw [List.mem_singleton] at hxk
    subst hxk
    exact hm hx

-- ---------------------------------------------------------------------------
-- Properties of the path-resolution loop (for C1)
-- ---------------------------------------------------------------------------

/-- A successful walk only writes join-map keys strictly longer than its
starting alias, so every binding at a key no longer than that alias
survives. -/
theorem parseLoop_preserve (sch : Schema) :
    ∀ (items : List Str) (curmdl : Nat) (curname : Str)
      (joins : List (Str × List Str))
      (res : List (Str × List Str) × Str × Attr × List Str),
      parseLoop sch items curmdl curname joins = .ok res →
      ∀ (k : Str) (v : List Str), k.length ≤ curname.length →
        lookupA joins k = some v → lookupA res.1 k = some v := by
  intro items
  induction items with
  | nil =>
    intro curmdl curname joins res h
    simp [parseLoop] at h
  | cons item rest ih =>
    intro curmdl curname joins res h k v hlen hlk
    simp only [parseLoop] at h
    rcases hat : lookupA (mget sch curmdl).attrs item with _ | fld
    · rw [hat] at h; simp at h
    · simp only [hat] at h
      by_cases hrel : fld.hasSqlJoins
      · rw [if_pos hrel] at h
        have hdot : (str ".").length = 1 := rfl
        have hne : k ≠ curname ++ str "." ++ item := fun he => by
          have hl := congrArg List.length he
          rw [List.length_append, List.length_append, hdot] at hl
          omega
        cases rest with
        | nil =>
          injection h with h
          subst h
          rw [lookupA_setAssoc_ne _ _ hne]
          exact hlk
        | cons r2 t2 =>
          refine ih _ _ _ _ h k v ?_ ?_
          · rw [List.length_append, List.length_append, hdot]
            omega
          · rw [lookupA_setAssoc_ne _ _ hne]
            exact hlk
      · rw [if_neg hrel] at h
        injection h with h
        subst h
        exact hlk

/-- Re-running the walk on the join map it produced changes nothing: each
step re-inserts the binding already present under its alias. -/
theorem parseLoop_idem (sch : Schema) :
    ∀ (items : List Str) (curmdl : Nat) (curname : Str)
      (joins : List (Str × List Str))
      (res : List (Str × List Str) × Str × Attr × List Str),
      parseLoop sch items curmdl curname joins = .ok res →
      parseLoop sch items curmdl curname res.1 = .ok res := by
  intro items
  induction items with
  | nil => intro _ _ _ _ h; simp [parseLoop] at h
  | cons item rest ih =>
    intro curmdl curname joins res h
    simp only [parseLoop] at h ⊢
    rcases hat : lookupA (mget sch curmdl).attrs item with _ | fld
    · rw [hat] at h; simp at h
    · simp only [hat] at h ⊢
      by_cases hrel : fld.hasSqlJoins
      · rw [if_pos hrel] at h ⊢
        cases rest with
        | nil =>
          injection h with h
          subst h
          rw [setAssoc_eq_of_lookupA _ _ _ (lookupA_setAssoc_self _ _ _)]
        | cons r2 t2 =>
          have hself : lookupA res.1 (curname ++ str "." ++ item) =
              some (attrJoins sch curmdl fld (curname ++ str "." ++ item) curname) :=
            parseLoop_preserve sch _ _ _ _ _ h _ _ (le_refl _)
              (lookupA_setAssoc_self _ _ _)
          rw [setAssoc_eq_of_lookupA _ _ _ hself]
          exact ih _ _ _ _ h
      · rw [if_neg hrel] at h ⊢
        injection h with h
        rw [← h]

/-- The walk keeps the join-map keys duplicate-free: a revisited alias
replaces its binding in place, a new alias is appended. -/
theorem parseLoop_nodup (sch : Schema) :
    ∀ (items : List Str) (curmdl : Nat) (curname : Str)
      (joins : List (Str × List Str))
      (res : List (Str × List Str) × Str × Attr × List Str),
      parseLoop sch items curmdl curname joins = .ok res →
      (joins.map Prod.fst).Nodup → (res.1.map Prod.fst).Nodup := by
  intro items
  induction items with
  | nil => intro _ _ _ _ h; simp [parseLoop] at h
  | cons item rest ih =>
    intro curmdl curname joins res h hnd
    simp only [parseLoop] at h
    rcases hat : lookupA (mget sch curmdl).attrs item with _ | fld
    · rw [hat] at h; simp at h
    · simp only [hat] at h
      by_cases hrel : fld.hasSqlJoins
      · rw [if_pos hrel] at h
        cases rest with
        | nil =>
          injection h with h
          subst h
          exact nodup_keys_setAssoc _ _ _ hnd
        | cons r2 t2 =>
          exact ih _ _ _ _ h (nodup_keys_setAssoc _ _ _ hnd)
      · rw [if_neg hrel] at h
        injection h with h
        subst h
        exact hnd

/-- The emitted key order is a permutation of the join-map keys. -/
theorem sortedJoinKeys_perm {α : Type} (qs : QuerySet α) :
    List.Perm (sortedJoinKeys qs) (qs.joins.map Prod.fst) :=
  (List.perm_insertionSort _ _).trans (List.perm_insertionSort _ _)

-- ---------------------------------------------------------------------------
-- C1
-- ---------------------------------------------------------------------------

/-- C1: resolving the same dotted relationship path a second time on the
query-set produced by the first resolution is a no-op — the join entry under
the cumulative alias is reused, not duplicated — the join-map keys stay
duplicate-free, and each alias therefore occurs exactly once in the sorted
key order the SQL compiler emits JOIN clauses from. -/
theorem c1 {α : Type} (sch : Schema) (qs : QuerySet α) (name : Str)
    (res : QuerySet α × Str × Attr × Option Str)
    (hok : parseFieldName sch qs name = .ok res)
    (hnd : (qs.joins.map Prod.fst).Nodup) :
    parseFieldName sch res.1 name = .ok res ∧
    (res.1.joins.map Prod.fst).Nodup ∧
    (sortedJoinKeys res.1).Nodup ∧
    ∀ a, a ∈ sortedJoinKeys res.1 ↔ a ∈ res.1.joins.map Prod.fst := by
  unfold parseFieldName at hok
  cases hpl : parseLoop sch (splitUU name) qs.cls (mget sch qs.cls).tableName qs.joins with
  | error e => rw [hpl] at hok; simp at hok
  | ok pres =>
    rw [hpl] at hok
    obtain ⟨joins', cn0, fld0, rest⟩ := pres
    simp only [] at hok
    by_cases hlen : rest.length ≥ 2
    · rw [if_pos hlen] at hok; simp at hok
    · rw [if_neg hlen] at hok
      injection hok with hok
      subst hok
      refine ⟨?_, ?_, ?_, ?_⟩
      · have hidem := parseLoop_idem sch _ _ _ _ _ hpl
        dsimp only at hidem
        show parseFieldName sch ({ qs with joins := joins' } : QuerySet α) name =
          .ok (({ qs with joins := joins' } : QuerySet α), cn0, fld0, rest.head?)
        unfold parseFieldName
        dsimp only
        rw [hidem]
        dsimp only
        rw [if_neg hlen]
      · exact parseLoop_nodup sch _ _ _ _ _ hpl hnd
      · exact (sortedJoinKeys_perm ({ qs with joins := joins' } : QuerySet α)).nodup_iff.mpr
          (parseLoop_nodup sch _ _ _ _ _ hpl hnd)
      · intro a
        exact (sortedJoinKeys_perm ({ qs with joins := joins' } : QuerySet α)).mem_iff

/-- Witness for C1: resolving member's path team followed by team's field
name leaves exactly one join entry, under the alias member.team, in the
emitted key order. -/
theorem c1_witness :
    (sortedJoinKeys ((parseFieldName demoSchema (freshQS demoSchema 1 : QuerySet Nat)
          (str "team__name")).toOption.getD
            ((freshQS demoSchema 1 : QuerySet Nat), ([] : Str), Attr.plain [],
              (Option.none : Option Str))).1).Nodup ∧
    str "member.team" ∈
      sortedJoinKeys ((parseFieldName demoSchema (freshQS demoSchema 1 : QuerySet Nat)
          (str "team__name")).toOption.getD
            ((freshQS demoSchema 1 : QuerySet Nat), ([] : Str), Attr.plain [],
              (Option.none : Option Str))).1 := by
  have hok : parseFieldName demoSchema (freshQS demoSchema 1 : QuerySet Nat)
      (str "team__name") =
      .ok ((parseFieldName demoSchema (freshQS demoSchema 1 : QuerySet Nat)
          (str "team__name")).toOption.getD
            ((freshQS demoSchema 1 : QuerySet Nat), ([] : Str), Attr.plain [],
              (Option.none : Option Str))) := by decide
  have h := c1 demoSchema (freshQS demoSchema 1 : QuerySet Nat) (str "team__name") _ hok
    (by decide)
  exact ⟨h.2.2.1, (h.2.2.2 (str "member.team")).mpr (by decide)⟩

-- ---------------------------------------------------------------------------
-- C5
-- ---------------------------------------------------------------------------

theorem splitDot_ne_nil (s : Str) : splitDot s ≠ [] := by
  cases s with
  | nil => simp [splitDot]
  | cons c cs =>
    simp only [splitDot]
    by_cases hc : c = '.'
    · simp [hc]
    · rw [if_neg hc]
      cases hsp : splitDot cs with
      | nil => simp
      | cons t ts => simp

theorem splitDot_length (s : Str) : (splitDot s).length = s.count '.' + 1 := by
  induction s with
  | nil => simp [splitDot]
  | cons c cs ih =>
    simp only [splitDot]
    by_cases hc : c = '.'
    · rw [if_pos hc]
      subst hc
      rw [List.count_cons]
      simp only [List.length_cons, ih]
      have hb : (('.' : Char) == '.') = true := by decide
      rw [hb, if_pos rfl]
    · rw [if_neg hc]
      cases hsp : splitDot cs with
      | nil => exact absurd hsp (splitDot_ne_nil cs)
      | cons t ts =>
        rw [hsp] at ih
        simp only [List.length_cons] at ih ⊢
        rw [List.count_cons]
        have hb : ((c : Char) == '.') = false := by
          simp [hc]
        rw [hb, if_neg Bool.false_ne_true]
        omega

/-- A join alias strictly extended by a dot and a suffix is strictly deeper. -/
theorem pathDepth_extend (a r : Str) : pathDepth a < pathDepth (a ++ '.' :: r) := by
  unfold pathDepth
  rw [splitDot_length, splitDot_length, List.count_append, List.count_cons]
  have hb : (('.' : Char) == '.') = true := by decide
  rw [hb, if_pos rfl]
  omega

instance : IsTotal Str (fun a b => pathDepth a ≤ pathDepth b) :=
  ⟨fun _ _ => Nat.le_total _ _⟩

instance : IsTrans Str (fun a b => pathDepth a ≤ pathDepth b) :=
  ⟨fun _ _ _ => Nat.le_trans⟩

/-- The emitted key order is sorted by path depth (the outer, stable sort of
the compiler). -/
theorem sortedJoinKeys_sorted {α : Type} (qs : QuerySet α) :
    List.Sorted (fun a b => pathDepth a ≤ pathDepth b) (sortedJoinKeys qs) :=
  List.sorted_insertionSort _ _

/-- In a list sorted by path depth, a strictly shallower element sits at a
strictly smaller position, wherever the two appear. -/
theorem sorted_lt_getElem {l : List Str}
    (hs : List.Sorted (fun a b => pathDepth a ≤ pathDepth b) l)
    {a b : Str} (hd : pathDepth a < pathDepth b) :
    ∀ (i j : Nat) (hi : i < l.length) (hj : j < l.length),
      l[i] = a → l[j] = b → i < j := by
  intro i j hi hj hia hjb
  rcases lt_trichotomy i j with h | h | h
  · exact h
  · exfalso
    subst h
    rw [hia] at hjb
    rw [hjb] at hd
    exact lt_irrefl _ hd
  · exfalso
    have hrel := List.pairwise_iff_getElem.mp hs _ _ hj hi h
    rw [hia, hjb] at hrel
    omega

/-- C5: the SQL compiler emits JOIN clauses in the order sortedJoinKeys — a
stable depth re-sort of the lexically sorted aliases, a permutation of the
join-map keys, sorted by path depth — so a join always precedes any deeper
join whose alias extends its own by a dotted suffix. -/
theorem c5 {α : Type} (qs : QuerySet α) :
    List.Sorted (fun a b => pathDepth a ≤ pathDepth b) (sortedJoinKeys qs) ∧
    List.Perm (sortedJoinKeys qs) (qs.joins.map Prod.fst) ∧
    ∀ (a b r : Str), b = a ++ '.' :: r →
      ∀ (i j : Nat) (hi : i < (sortedJoinKeys qs).length)
        (hj : j < (sortedJoinKeys qs).length),
        (sortedJoinKeys qs)[i] = a → (sortedJoinKeys qs)[j] = b → i < j := by
  refine ⟨sortedJoinKeys_sorted qs, sortedJoinKeys_perm qs, ?_⟩
  intro a b r hext
  refine sorted_lt_getElem (sortedJoinKeys_sorted qs) ?_
  rw [hext]
  exact pathDepth_extend a r

/-- Witness for C5 on a concrete two-entry join map whose second alias
extends the first: the shallower alias is emitted at position 0, the deeper
at position 1. -/
theorem c5_witness :
    (0 : Nat) < 1 ∧
    (sortedJoinKeys ({ freshQS demoSchema 1 with
        joins := [(str "member.team.x", [str "c2"]), (str "member.team", [str "c1"])] } :
          QuerySet Nat)) = [str "member.team", str "member.team.x"] := by
  constructor
  · exact (c5 ({ freshQS demoSchema 1 with
        joins := [(str "member.team.x", [str "c2"]), (str "member.team", [str "c1"])] } :
          QuerySet Nat)).2.2 (str "member.team") (str "member.team.x") (str "x")
      (by decide) 0 1 (by decide) (by decide) (by decide) (by decide)
  · decide

-- ---------------------------------------------------------------------------
-- Digit-string lemmas for the temporal round trip (C8)
-- ---------------------------------------------------------------------------

theorem digit_spec : ∀ d, d < 10 →
    (Char.ofNat (48 + d)).toNat = 48 + d ∧ isDig (Char.ofNat (48 + d)) = true := by
  decide

theorem padDigits_length (w : Nat) : ∀ n, (padDigits w n).length = w := by
  induction w with
  | zero => intro n; simp [padDigits]
  | succ w ih => intro n; simp [padDigits, ih]

theorem padDigits_isDig (w : Nat) : ∀ n, ∀ c ∈ padDigits w n, isDig c = true := by
  induction w with
  | zero => intro n c hc; simp [padDigits] at hc
  | succ w ih =>
    intro n c hc
    simp only [padDigits] at hc
    rcases List.mem_append.mp hc with hc | hc
    · exact ih _ c hc
    · rw [List.mem_singleton] at hc
      subst hc
      exact (digit_spec (n % 10) (Nat.mod_lt _ (by norm_num))).2

theorem foldl_padDigits (w : Nat) : ∀ (n acc : Nat), n < 10 ^ w →
    (padDigits w n).foldl (fun a c => 10 * a + (c.toNat - 48)) acc =
      acc * 10 ^ w + n := by
  induction w with
  | zero =>
    intro n acc h
    have hn : n = 0 := by simpa using h
    subst hn
    simp [padDigits]
  | succ w ih =>
    intro n acc h
    have hlt : n / 10 < 10 ^ w := by
      rw [pow_succ] at h
      omega
    simp only [padDigits]
    rw [List.foldl_append, ih (n / 10) acc hlt]
    simp only [List.foldl_cons, List.foldl_nil]
    have hd := (digit_spec (n % 10) (Nat.mod_lt _ (by norm_num))).1
    rw [hd]
    have h1 : 48 + n % 10 - 48 = n % 10 := by omega
    rw [h1, pow_succ]
    have h2 : 10 * (n / 10) + n % 10 = n := by omega
    calc 10 * (acc * 10 ^ w + n / 10) + n % 10
        = acc * (10 ^ w * 10) + (10 * (n / 10) + n % 10) := by ring
      _ = acc * (10 ^ w * 10) + n := by rw [h2]

theorem readN_digits : ∀ (ds rest : Str) (acc : Nat), (∀ c ∈ ds, isDig c = true) →
    readN ds.length (ds ++ rest) acc =
      some (ds.foldl (fun a c => 10 * a + (c.toNat - 48)) acc, rest) := by
  intro ds
  induction ds with
  | nil => intro rest acc _; simp [readN]
  | cons c t ih =>
    intro rest acc hall
    simp only [List.length_cons, List.cons_append, readN]
    rw [if_pos (hall c (List.mem_cons_self _ _))]
    simp only [List.append_eq]
    rw [ih rest _ (fun x hx => hall x (List.mem_cons_of_mem _ hx))]
    simp [List.foldl_cons]

/-- Reading back a zero-padded w-digit field recovers the value and leaves
the rest of the input untouched. -/
theorem readN_padDigits (w n : Nat) (rest : Str) (h : n < 10 ^ w) :
    readN w (padDigits w n ++ rest) 0 = some (n, rest) := by
  have hl := padDigits_length w n
  calc readN w (padDigits w n ++ rest) 0
      = readN (padDigits w n).length (padDigits w n ++ rest) 0 := by rw [hl]
    _ = some ((padDigits w n).foldl (fun a c => 10 * a + (c.toNat - 48)) 0, rest) :=
        readN_digits _ _ _ (padDigits_isDig w n)
    _ = some (n, rest) := by rw [foldl_padDigits w n 0 h]; simp

theorem readSep_cons (c : Char) (rest : Str) : readSep c (c :: rest) = some rest := by
  simp [readSep]

-- ---------------------------------------------------------------------------
-- C8
-- ---------------------------------------------------------------------------

/-- Parsing the canonical timestamp rendering of a valid datetime recovers
it exactly. -/
theorem parseTS_formatTS (dt : PyDateTime) (hv : dt.valid) :
    parseTS (formatTS dt) = some dt := by
  obtain ⟨hymd, hhms⟩ := hv
  have hb : 1 ≤ dt.year ∧ dt.year ≤ 9999 ∧ 1 ≤ dt.month ∧ dt.month ≤ 12 ∧
      1 ≤ dt.day ∧ dt.day ≤ daysInMonth dt.year dt.month := hymd
  have hb2 : dt.hour ≤ 23 ∧ dt.minute ≤ 59 ∧ dt.second ≤ 59 := hhms
  have hdm : daysInMonth dt.year dt.month ≤ 31 := by
    unfold daysInMonth
    split
    · split <;> omega
    · split <;> omega
  have e1 : ∀ rest, readN 4 (padDigits 4 dt.year ++ rest) 0 = some (dt.year, rest) :=
    fun rest => readN_padDigits 4 dt.year rest (by norm_num; omega)
  have e2 : ∀ rest, readN 2 (padDigits 2 dt.month ++ rest) 0 = some (dt.month, rest) :=
    fun rest => readN_padDigits 2 dt.month rest (by norm_num; omega)
  have e3 : ∀ rest, readN 2 (padDigits 2 dt.day ++ rest) 0 = some (dt.day, rest) :=
    fun rest => readN_padDigits 2 dt.day rest (by norm_num; omega)
  have e4 : ∀ rest, readN 2 (padDigits 2 dt.hour ++ rest) 0 = some (dt.hour, rest) :=
    fun rest => readN_padDigits 2 dt.hour rest (by norm_num; omega)
  have e5 : ∀ rest, readN 2 (padDigits 2 dt.minute ++ rest) 0 = some (dt.minute, rest) :=
    fun rest => readN_padDigits 2 dt.minute rest (by norm_num; omega)
  have e6 : readN 2 (padDigits 2 dt.second) 0 = some (dt.second, []) := by
    have := readN_padDigits 2 dt.second [] (by norm_num; omega)
    simpa using this
  simp only [formatTS, parseTS, List.append_assoc,
    show (str "-" : Str) = ['-'] from rfl, show (str " " : Str) = [' '] from rfl,
    show (str ":" : Str) = [':'] from rfl, List.singleton_append]
  repeat simp only [e1, e2, e3, e4, e5, e6, readSep_cons, List.cons_append]
  simp [hymd, hhms]

/-- Parsing the canonical date rendering of a valid date recovers it. -/
theorem parseDate_formatDate (d : PyDate) (hv : d.valid) :
    parseDate (formatDate d) = some d := by
  have hb : 1 ≤ d.year ∧ d.year ≤ 9999 ∧ 1 ≤ d.month ∧ d.month ≤ 12 ∧
      1 ≤ d.day ∧ d.day ≤ daysInMonth d.year d.month := hv
  have hdm : daysInMonth d.year d.month ≤ 31 := by
    unfold daysInMonth
    split
    · split <;> omega
    · split <;> omega
  have e1 : ∀ rest, readN 4 (padDigits 4 d.year ++ rest) 0 = some (d.year, rest) :=
    fun rest => readN_padDigits 4 d.year rest (by norm_num; omega)
  have e2 : ∀ rest, readN 2 (padDigits 2 d.month ++ rest) 0 = some (d.month, rest) :=
    fun rest => readN_padDigits 2 d.month rest (by norm_num; omega)
  have e3 : readN 2 (padDigits 2 d.day) 0 = some (d.day, []) := by
    have := readN_padDigits 2 d.day [] (by norm_num; omega)
    simpa using this
  simp only [formatDate, parseDate, List.append_assoc,
    show (str "-" : Str) = ['-'] from rfl, List.singleton_append]
  repeat simp only [e1, e2, e3, readSep_cons, List.cons_append]
  simp [show validYMD d.year d.month d.day from hv]

/-- Parsing the canonical time rendering of a valid time recovers it. -/
theorem parseTime_formatTime (t : PyTime) (hv : t.valid) :
    parseTime (formatTime t) = some t := by
  have hb : t.hour ≤ 23 ∧ t.minute ≤ 59 ∧ t.second ≤ 59 := hv
  have e1 : ∀ rest, readN 2 (padDigits 2 t.hour ++ rest) 0 = some (t.hour, rest) :=
    fun rest => readN_padDigits 2 t.hour rest (by norm_num; omega)
  have e2 : ∀ rest, readN 2 (padDigits 2 t.minute ++ rest) 0 = some (t.minute, rest) :=
    fun rest => readN_padDigits 2 t.minute rest (by norm_num; omega)
  have e3 : readN 2 (padDigits 2 t.second) 0 = some (t.second, []) := by
    have := readN_padDigits 2 t.second [] (by norm_num; omega)
    simpa using this
  simp only [formatTime, parseTime, List.append_assoc,
    show (str ":" : Str) = [':'] from rfl, List.singleton_append]
  repeat simp only [e1, e2, e3, readSep_cons, List.cons_append]
  simp [show validHMS t.hour t.minute t.second from hv]

/-- C8: for each temporal field kind, reading the stored string back
(to_object) is a left inverse of storing (to_database) on its value domain:
a valid whole-second datetime round-trips through the YYYY-MM-DD HH:MM:SS
string, a valid date through YYYY-MM-DD, a valid whole-second time through
HH:MM:SS — and in each kind both directions map None to None. -/
theorem c8 :
    (∀ dt : PyDateTime, dt.valid →
      TimestampField.to_object (TimestampField.to_database (some dt)) = some (some dt)) ∧
    TimestampField.to_object (TimestampField.to_database Option.none) =
      some Option.none ∧
    (∀ d : PyDate, d.valid →
      DateField.to_object (DateField.to_database (some d)) = some (some d)) ∧
    DateField.to_object (DateField.to_database Option.none) = some Option.none ∧
    (∀ t : PyTime, t.valid →
      TimeField.to_object (TimeField.to_database (some t)) = some (some t)) ∧
    TimeField.to_object (TimeField.to_database Option.none) = some Option.none := by
  refine ⟨?_, rfl, ?_, rfl, ?_, rfl⟩
  · intro dt hv
    simp [TimestampField.to_object, TimestampField.to_database, parseTS_formatTS dt hv]
  · intro d hv
    simp [DateField.to_object, DateField.to_database, parseDate_formatDate d hv]
  · intro t hv
    simp [TimeField.to_object, TimeField.to_database, parseTime_formatTime t hv]

/-- Witness for C8 at the concrete datetime 2021-03-04 05:06:07, the date
2021-03-04 and the time 05:06:07. -/
theorem c8_witness :
    TimestampField.to_object (TimestampField.to_database
        (some ⟨2021, 3, 4, 5, 6, 7⟩)) = some (some ⟨2021, 3, 4, 5, 6, 7⟩) ∧
    DateField.to_object (DateField.to_database (some ⟨2021, 3, 4⟩)) =
      some (some ⟨2021, 3, 4⟩) ∧
    TimeField.to_object (TimeField.to_database (some ⟨5, 6, 7⟩)) =
      some (some ⟨5, 6, 7⟩) :=
  ⟨c8.1 ⟨2021, 3, 4, 5, 6, 7⟩ (by decide),
   c8.2.2.1 ⟨2021, 3, 4⟩ (by decide),
   c8.2.2.2.2.1 ⟨5, 6, 7⟩ (by decide)⟩

-- ---------------------------------------------------------------------------
-- C9
-- ---------------------------------------------------------------------------

theorem lookup_foldl_set_not_mem {β : Type} (g : Str → β) :
    ∀ (names : List Str) (d : List (Str × β)) (a : Str), a ∉ names →
      lookupA (names.foldl (fun d n => setAssoc d n (g n)) d) a = lookupA d a := by
  intro names
  induction names with
  | nil => intro d a _; rfl
  | cons n rest ih =>
    intro d a ha
    simp only [List.foldl_cons]
    rw [ih _ _ (fun h => ha (List.mem_cons_of_mem _ h))]
    exact lookupA_setAssoc_ne d (g n) (fun h => ha (by rw [h]; exact List.mem_cons_self _ _))

theorem lookup_foldl_set_mem {β : Type} (g : Str → β) :
    ∀ (names : List Str) (d : List (Str × β)) (a : Str), a ∈ names →
      lookupA (names.foldl (fun d n => setAssoc d n (g n)) d) a = some (g a) := by
  intro names
  induction names with
  | nil => intro d a ha; cases ha
  | cons n rest ih =>
    intro d a ha
    simp only [List.foldl_cons]
    by_cases hm : a ∈ rest
    · exact ih _ _ hm
    · have hn : a = n := by
        rcases List.mem_cons.mp ha with h | h
        · exact h
        · exact absurd h hm
      subst hn
      rw [lookup_foldl_set_not_mem g rest _ a hm, lookupA_setAssoc_self]

/-- Pairing a name list with its own image under f and folding the pairs into
a row is the same as folding the names directly. -/
theorem foldl_zip_map {β : Type} (f : Str → β) :
    ∀ (names : List Str) (r : List (Str × β)),
      (names.zip (names.map f)).foldl (fun row nv => setAssoc row nv.1 nv.2) r =
        names.foldl (fun row n => setAssoc row n (f n)) r := by
  intro names
  induction names with
  | nil => intro r; rfl
  | cons n rest ih =>
    intro r
    simp only [List.map_cons, List.zip_cons_cons, List.foldl_cons]
    exact ih _

theorem map_id_of_eq {α : Type} (f : α → α) :
    ∀ (l : List α), (∀ a ∈ l, f a = a) → l.map f = l := by
  intro l
  induction l with
  | nil => intro _; rfl
  | cons x t ih =>
    intro h
    simp only [List.map_cons]
    rw [h x (List.mem_cons_self _ _), ih (fun a ha => h a (List.mem_cons_of_mem _ ha))]

theorem filter_eq_nil_of {α : Type} (p : α → Bool) :
    ∀ (l : List α), (∀ a ∈ l, p a = false) → l.filter p = [] := by
  intro l
  induction l with
  | nil => intro _; rfl
  | cons x t ih =>
    intro h
    rw [List.filter_cons, h x (List.mem_cons_self _ _), if_neg Bool.false_ne_true]
    exact ih (fun a ha => h a (List.mem_cons_of_mem _ ha))

/-- C9: save issues the UPDATE with the WHERE clause bound to the original
primary-key value _orig_pk captured at load time, not the current in-memory
value (macaron.py:1412-1414): on a table holding the object's row under the
original key, the row stored under the original key — and only it — receives
the new field values, so a change to the primary-key field itself is
persisted; the parameter list ends with _orig_pk; and after the successful
save the returned object's cached original-key reference equals its new
primary key (macaron.py:1425). -/
theorem c9 (m : ModelSpec) (o : MObj) (dbA dbB : List Row) (r : Row)
    (lastrowid : PyPrim)
    (hpk : m.primaryKey ∈ m.fieldNames)
    (hr : getData r m.primaryKey = o.origPk)
    (hnew : pkOf m o ≠ PyPrim.none)
    (hA : ∀ r' ∈ dbA, getData r' m.primaryKey ≠ o.origPk ∧
           getData r' m.primaryKey ≠ pkOf m o)
    (hB : ∀ r' ∈ dbB, getData r' m.primaryKey ≠ o.origPk ∧
           getData r' m.primaryKey ≠ pkOf m o) :
    ∃ o' : MObj,
      saveM m o (dbA ++ r :: dbB) lastrowid =
        .ok (o', dbA ++ (m.fieldNames.foldl
          (fun row n => setAssoc row n (getData o.data n)) r) :: dbB) ∧
      saveParams m o = m.fieldNames.map (getData o.data) ++ [o.origPk] ∧
      getData (m.fieldNames.foldl
          (fun row n => setAssoc row n (getData o.data n)) r) m.primaryKey =
        pkOf m o ∧
      o'.origPk = pkOf m o' ∧
      pkOf m o' = pkOf m o := by
  have hupd_pk : getData (m.fieldNames.foldl
      (fun row n => setAssoc row n (getData o.data n)) r) m.primaryKey =
      pkOf m o := by
    show (lookupA (m.fieldNames.foldl
      (fun row n => setAssoc row n (getData o.data n)) r) m.primaryKey).getD
        PyPrim.none = pkOf m o
    rw [lookup_foldl_set_mem _ m.fieldNames r m.primaryKey hpk]
    rfl
  have hmapA : dbA.map (fun r' =>
      if getData r' m.primaryKey = o.origPk then
        (m.fieldNames.zip (m.fieldNames.map (getData o.data))).foldl
          (fun row nv => setAssoc row nv.1 nv.2) r'
      else r') = dbA :=
    map_id_of_eq _ dbA (fun a ha => if_neg (hA a ha).1)
  have hmapB : dbB.map (fun r' =>
      if getData r' m.primaryKey = o.origPk then
        (m.fieldNames.zip (m.fieldNames.map (getData o.data))).foldl
          (fun row nv => setAssoc row nv.1 nv.2) r'
      else r') = dbB :=
    map_id_of_eq _ dbB (fun a ha => if_neg (hB a ha).1)
  have hdb' : applyUpdate m (m.fieldNames.map (getData o.data)) o.origPk
      (dbA ++ r :: dbB) =
      dbA ++ (m.fieldNames.foldl
        (fun row n => setAssoc row n (getData o.data n)) r) :: dbB := by
    unfold applyUpdate
    simp only [List.map_append, List.map_cons]
    rw [hmapA, hmapB, if_pos hr, foldl_zip_map]
  have hsel : dbSelectPk m
      (dbA ++ (m.fieldNames.foldl
        (fun row n => setAssoc row n (getData o.data n)) r) :: dbB)
      (pkOf m o) =
      [m.fieldNames.foldl (fun row n => setAssoc row n (getData o.data n)) r] := by
    unfold dbSelectPk
    rw [List.filter_append, List.filter_cons]
    rw [filter_eq_nil_of _ dbA (fun a ha => decide_eq_false (hA a ha).2),
        filter_eq_nil_of _ dbB (fun a ha => decide_eq_false (hB a ha).2)]
    simp [hupd_pk]
  refine ⟨⟨m.fieldNames.foldl (fun d n => setAssoc d n (getData
      (m.fieldNames.foldl (fun row n => setAssoc row n (getData o.data n)) r) n))
      o.data,
    getData (m.fieldNames.foldl (fun d n => setAssoc d n (getData
      (m.fieldNames.foldl (fun row n => setAssoc row n (getData o.data n)) r) n))
      o.data) m.primaryKey⟩, ?_, rfl, hupd_pk, rfl, ?_⟩
  · simp only [saveM]
    rw [hdb', if_neg hnew, hsel]
  · show (lookupA (m.fieldNames.foldl (fun d n => setAssoc d n (getData
      (m.fieldNames.foldl (fun row n => setAssoc row n (getData o.data n)) r) n))
      o.data) m.primaryKey).getD PyPrim.none = pkOf m o
    rw [lookup_foldl_set_mem _ m.fieldNames o.data m.primaryKey hpk]
    exact hupd_pk

/-- Witness for C9: a two-column team model whose in-memory primary key was
changed from 1 to 5; save updates the row stored under the original key 1,
the new key 5 is persisted in the table, and the returned object caches 5
as its new original key. -/
theorem c9_witness :
    ∃ o' : MObj,
      saveM ⟨str "team", str "id", [str "id", str "name"]⟩
          ⟨[(str "id", PyPrim.int 5), (str "name", PyPrim.str (str "a"))],
            PyPrim.int 1⟩
          ([(str "id", PyPrim.int 1), (str "name", PyPrim.str (str "o"))] ::
            [[(str "id", PyPrim.int 2), (str "name", PyPrim.str (str "b"))]])
          (PyPrim.int 9) =
        .ok (o', [[(str "id", PyPrim.int 5), (str "name", PyPrim.str (str "a"))],
                  [(str "id", PyPrim.int 2), (str "name", PyPrim.str (str "b"))]]) ∧
      o'.origPk = pkOf ⟨str "team", str "id", [str "id", str "name"]⟩ o' ∧
      pkOf ⟨str "team", str "id", [str "id", str "name"]⟩ o' = PyPrim.int 5 := by
  obtain ⟨o', h1, h2, h3, h4, h5⟩ :=
    c9 ⟨str "team", str "id", [str "id", str "name"]⟩
      ⟨[(str "id", PyPrim.int 5), (str "name", PyPrim.str (str "a"))],
        PyPrim.int 1⟩
      [] [[(str "id", PyPrim.int 2), (str "name", PyPrim.str (str "b"))]]
      [(str "id", PyPrim.int 1), (str "name", PyPrim.str (str "o"))]
      (PyPrim.int 9)
      (by decide) (by decide) (by decide) (by decide) (by decide)
  exact ⟨o', h1, h4, h5.trans (by decide)⟩

end Macaron
